import Mathlib

/-!
# Verification of the Kairos scheduling/travel/rules core

Shallow embedding of the computational core of the Kairos calendar backend:

* `backend/services/travel_service.py` — travel-time estimation (heuristics +
  cache);
* `backend/services/smart_scheduler_service.py` — time constraints, slot
  availability, travel-conflict detection, slot search and scoring;
* `backend/services/rules_engine_service.py` — suggestion rules (break,
  balance, postponement), deduplication, expiry sweep, active listing;
* `backend/routes/smart_scheduling.py` — request validation bounds.

Modelling conventions:

* Python's naive `datetime` values and `timedelta`s are modelled as integer
  **seconds** (`Int`); `%` / `/` on `Int` (Euclidean, floor for the positive
  divisors used here) match Python's `%` / `//`.
* Locations are `Option String` (`None` ↔ `none`); Python string truthiness
  (`if location:`) is `pyTruthy`, false for `none` and for `some ""`.
* Fractional quantities (hours of work, slot scores) are `ℚ`, mirroring
  Python's exact arithmetic on the whole-second values that occur here.
* Database queries become filters/sorts over explicit stores
  (`List Event`, `List Suggestion`); each call threads the store it mutates.
* Presentation-only fields (free-text descriptions, serialized JSON payloads,
  localized messages) are not modelled; no claim depends on them.
-/

namespace Kairos

/-- A naive timestamp or duration, in seconds (Python `datetime`/`timedelta`). -/
abbrev Time := Int

/-- `dt.replace(hour=0, minute=0, second=0, microsecond=0)`: midnight of the
day of `t`. -/
def dayStart (t : Int) : Int := t - t % 86400

/-- `dt.hour` for a naive datetime modelled as seconds. -/
def hourOf (t : Int) : Int := t % 86400 / 3600

/-- `dt.time()` as seconds since midnight. -/
def timeOfDay (t : Int) : Int := t % 86400

/-- Python truthiness of an optional string: `None` and `""` are falsy. -/
def pyTruthy : Option String → Bool
  | none => false
  | some s => s ≠ ""

/-! ## TravelService (`backend/services/travel_service.py`) -/

/-- ASCII whitespace as matched by `\s` in `re.sub(r'\s+', ' ', ·)` and
stripped by `str.strip()` (non-ASCII whitespace is not used by any claim;
strings are handled at the character-list level so that every operation is
structurally recursive). -/
def isPySpace (c : Char) : Bool :=
  c = ' ' ∨ c = '\t' ∨ c = '\n' ∨ c = '\r' ∨ c = '\x0b' ∨ c = '\x0c'

/-- `str.lower()` (ASCII case folding; no claim uses non-ASCII letters). -/
def lowerChars (l : List Char) : List Char := l.map Char.toLower

/-- `str.strip()`. -/
def trimChars (l : List Char) : List Char :=
  ((l.dropWhile isPySpace).reverse.dropWhile isPySpace).reverse

/-- Replace every run of whitespace by a single `' '` (`re.sub(r'\s+', ' ', ·)`). -/
def collapseSpaces : List Char → List Char
  | [] => []
  | [c] => [if isPySpace c then ' ' else c]
  | c₁ :: c₂ :: cs =>
    if isPySpace c₁ ∧ isPySpace c₂ then collapseSpaces (c₂ :: cs)
    else (if isPySpace c₁ then ' ' else c₁) :: collapseSpaces (c₂ :: cs)

/-- `TravelService._normalize_location`:
`re.sub(r'\s+', ' ', location.lower().strip())`. -/
def normalize_location (location : String) : String :=
  String.mk (collapseSpaces (trimChars (lowerChars location.data)))

/-- `str.split(',')`. -/
def splitOnComma : List Char → List (List Char)
  | [] => [[]]
  | c :: cs =>
    if c = ',' then [] :: splitOnComma cs
    else
      match splitOnComma cs with
      | [] => [[c]]
      | p :: ps => (c :: p) :: ps

/-- `TravelService.DEFAULT_TRAVEL_TIMES`, in minutes. -/
def DEFAULT_TRAVEL_TIMES : String → Int
  | "same_building" => 5
  | "same_neighborhood" => 15
  | "same_city" => 30
  | "different_city" => 60
  | _ => 30

/-- `origin_parts[0].strip()`. -/
def firstPart (parts : List (List Char)) : List Char := trimChars (parts.headD [])

/-- `origin_parts[-1].strip()`. -/
def lastPart (parts : List (List Char)) : List Char := trimChars (parts.getLastD [])

/-- `origin_parts[-2].strip()` (used only when the list has ≥ 3 elements). -/
def secondLastPart (parts : List (List Char)) : List Char :=
  trimChars ((parts.drop (parts.length - 2)).headD [])

/-- Tier 1 guard: `len(origin_parts) >= 2 and len(dest_parts) >= 2` and
`origin_parts[0].strip() == dest_parts[0].strip()`. -/
abbrev sameBuildingTier (op dp : List (List Char)) : Prop :=
  2 ≤ op.length ∧ 2 ≤ dp.length ∧ firstPart op = firstPart dp

/-- Tier 2 guard: `len(origin_parts) >= 3 and len(dest_parts) >= 3` and
`origin_parts[-2].strip() == dest_parts[-2].strip()`. -/
abbrev sameNeighborhoodTier (op dp : List (List Char)) : Prop :=
  3 ≤ op.length ∧ 3 ≤ dp.length ∧ secondLastPart op = secondLastPart dp

/-- Tier 3 guard: `len(origin_parts) >= 2 and len(dest_parts) >= 2` and
`origin_parts[-1].strip() == dest_parts[-1].strip()`. -/
abbrev sameCityTier (op dp : List (List Char)) : Prop :=
  2 ≤ op.length ∧ 2 ≤ dp.length ∧ lastPart op = lastPart dp

/-- `TravelService._estimate_travel_time` on two normalized locations,
returning seconds.  The tier conditions are transcribed from the source:
each of the "same building" and "same city" tiers is guarded by
`len(origin_parts) >= 2 and len(dest_parts) >= 2`. -/
def estimate_travel_time (origin destination : String) : Int :=
  if sameBuildingTier (splitOnComma origin.data) (splitOnComma destination.data) then
    60 * DEFAULT_TRAVEL_TIMES "same_building"
  else if sameNeighborhoodTier (splitOnComma origin.data) (splitOnComma destination.data) then
    60 * DEFAULT_TRAVEL_TIMES "same_neighborhood"
  else if sameCityTier (splitOnComma origin.data) (splitOnComma destination.data) then
    60 * DEFAULT_TRAVEL_TIMES "same_city"
  else
    60 * DEFAULT_TRAVEL_TIMES "different_city"

/-- The process-wide travel cache `_travel_cache`, keyed by the normalized
(origin, destination) ordered pair, values in seconds. -/
abbrev TravelCache := List ((String × String) × Int)

/-- Dict lookup in the cache. -/
def cacheLookup (cache : TravelCache) (key : String × String) : Option Int :=
  (cache.find? (fun e => e.1 = key)).map (·.2)

/-- `TravelService.calculate_travel_time` with the external API disabled
(`use_api` false / no provider — the configuration under which every claim
about it is stated), returning the estimate in seconds together with the
updated cache. -/
def calculate_travel_time (cache : TravelCache) (origin destination : Option String) :
    Int × TravelCache :=
  if ¬ pyTruthy origin ∨ ¬ pyTruthy destination then (0, cache)
  else
    let origin_norm := normalize_location (origin.getD "")
    let destination_norm := normalize_location (destination.getD "")
    if origin_norm = destination_norm then (0, cache)
    else
      match cacheLookup cache (origin_norm, destination_norm) with
      | some v => (v, cache)
      | none =>
        let v := estimate_travel_time origin_norm destination_norm
        (v, ((origin_norm, destination_norm), v) :: cache)

/-- The value `calculate_travel_time` computes, as a pure function of the two
locations (what the scheduler observes: with the API disabled the cache only
ever memoizes `estimate_travel_time`, see `calculate_travel_time_consistent`). -/
def travelTime (origin destination : Option String) : Int :=
  if ¬ pyTruthy origin ∨ ¬ pyTruthy destination then 0
  else
    let o := normalize_location (origin.getD "")
    let d := normalize_location (destination.getD "")
    if o = d then 0 else estimate_travel_time o d

/-- A cache is consistent when every entry stores the heuristic estimate of
its key — an invariant of every cache reachable with the API disabled. -/
def ConsistentCache (cache : TravelCache) : Prop :=
  ∀ k v, (k, v) ∈ cache → v = estimate_travel_time k.1 k.2

theorem consistentCache_nil : ConsistentCache [] := by
  intro k v h; cases h

theorem cacheLookup_consistent {cache : TravelCache} (h : ConsistentCache cache)
    {k : String × String} {v : Int} (hl : cacheLookup cache k = some v) :
    v = estimate_travel_time k.1 k.2 := by
  unfold cacheLookup at hl
  rcases Option.map_eq_some'.mp hl with ⟨e, he, rfl⟩
  have hmem := List.find?_some he
  have := h e.1 e.2 (by
    have := List.mem_of_find?_eq_some he
    simpa using this)
  have hk : e.1 = k := by simpa using hmem
  subst hk; exact this

/-- On a consistent cache, the stateful `calculate_travel_time` returns
exactly the pure `travelTime`, and the cache stays consistent. -/
theorem calculate_travel_time_consistent (cache : TravelCache)
    (h : ConsistentCache cache) (origin destination : Option String) :
    (calculate_travel_time cache origin destination).1 = travelTime origin destination ∧
      ConsistentCache (calculate_travel_time cache origin destination).2 := by
  unfold calculate_travel_time travelTime
  split
  · exact ⟨rfl, h⟩
  · dsimp only
    split
    · exact ⟨rfl, h⟩
    · rcases hc : cacheLookup cache
        (normalize_location (origin.getD ""), normalize_location (destination.getD "")) with
        _ | v
      · refine ⟨rfl, ?_⟩
        intro k v hkv
        rcases List.mem_cons.mp hkv with heq | hmem
        · rw [Prod.mk.injEq] at heq
          rcases heq with ⟨hk, hv⟩
          subst hk; simpa using hv
        · exact h k v hmem
      · exact ⟨by simpa using cacheLookup_consistent h hc, h⟩

/-- The heuristic tiering exactly as claim C2 words it: tier 1 compares the
leading comma-delimited segments with no requirement on the number of parts,
tier 3 likewise compares the last segments unconditionally; only tier 2 is
guarded by "both addresses have ≥ 3 comma-delimited parts".  Stated for the
refinement comparison with `estimate_travel_time`. -/
def claimed_estimate_travel_time (origin destination : String) : Int :=
  if firstPart (splitOnComma origin.data) = firstPart (splitOnComma destination.data) then
    60 * 5
  else if 3 ≤ (splitOnComma origin.data).length ∧ 3 ≤ (splitOnComma destination.data).length ∧
      secondLastPart (splitOnComma origin.data) = secondLastPart (splitOnComma destination.data) then
    60 * 15
  else if lastPart (splitOnComma origin.data) = lastPart (splitOnComma destination.data) then
    60 * 30
  else
    60 * 60

theorem sameBuildingTier_comm (op dp : List (List Char)) :
    sameBuildingTier op dp ↔ sameBuildingTier dp op := by
  constructor <;> (rintro ⟨h1, h2, h3⟩; exact ⟨h2, h1, h3.symm⟩)

theorem sameNeighborhoodTier_comm (op dp : List (List Char)) :
    sameNeighborhoodTier op dp ↔ sameNeighborhoodTier dp op := by
  constructor <;> (rintro ⟨h1, h2, h3⟩; exact ⟨h2, h1, h3.symm⟩)

theorem sameCityTier_comm (op dp : List (List Char)) :
    sameCityTier op dp ↔ sameCityTier dp op := by
  constructor <;> (rintro ⟨h1, h2, h3⟩; exact ⟨h2, h1, h3.symm⟩)

theorem estimate_travel_time_comm (a b : String) :
    estimate_travel_time a b = estimate_travel_time b a := by
  unfold estimate_travel_time
  rw [if_congr (sameBuildingTier_comm _ _) rfl
    (if_congr (sameNeighborhoodTier_comm _ _) rfl
      (if_congr (sameCityTier_comm _ _) rfl rfl))]

/-- C2 (counterexample): for the pair `"paris"` / `"paris, x"` — both present,
normalized forms differ — the leading comma-delimited segments are equal
(`"paris"`), so the claimed tiering returns 5 minutes, but
`_estimate_travel_time` returns 60 minutes: its first and third tiers are
additionally guarded by both addresses having ≥ 2 comma-delimited parts,
which the claim omits. -/
theorem claim_C2_counterexample :
    normalize_location "paris" ≠ normalize_location "paris, x" ∧
    firstPart (splitOnComma "paris".data) = firstPart (splitOnComma "paris, x".data) ∧
    claimed_estimate_travel_time "paris" "paris, x" = 5 * 60 ∧
    estimate_travel_time "paris" "paris, x" = 60 * 60 := by
  refine ⟨by decide, by decide, by decide, by decide⟩

/-- C2 (amended): the heuristic estimate on two present, normalized locations
is decided by the first matching tier, where the "same building" (5 min) and
"same city" (30 min) tiers additionally require both addresses to have at
least 2 comma-delimited parts: (1) both ≥ 2 parts and equal leading segments
→ 5 min; (2) both ≥ 3 parts and equal second-to-last segments → 15 min;
(3) both ≥ 2 parts and equal last segments → 30 min; (4) otherwise 60 min —
and every pair maps to exactly one of {5, 15, 30, 60} minutes. -/
theorem claim_C2_amended (origin destination : String) :
    (sameBuildingTier (splitOnComma origin.data) (splitOnComma destination.data) →
      estimate_travel_time origin destination = 5 * 60) ∧
    (¬ sameBuildingTier (splitOnComma origin.data) (splitOnComma destination.data) →
      sameNeighborhoodTier (splitOnComma origin.data) (splitOnComma destination.data) →
      estimate_travel_time origin destination = 15 * 60) ∧
    (¬ sameBuildingTier (splitOnComma origin.data) (splitOnComma destination.data) →
      ¬ sameNeighborhoodTier (splitOnComma origin.data) (splitOnComma destination.data) →
      sameCityTier (splitOnComma origin.data) (splitOnComma destination.data) →
      estimate_travel_time origin destination = 30 * 60) ∧
    (¬ sameBuildingTier (splitOnComma origin.data) (splitOnComma destination.data) →
      ¬ sameNeighborhoodTier (splitOnComma origin.data) (splitOnComma destination.data) →
      ¬ sameCityTier (splitOnComma origin.data) (splitOnComma destination.data) →
      estimate_travel_time origin destination = 60 * 60) ∧
    (estimate_travel_time origin destination = 5 * 60 ∨
      estimate_travel_time origin destination = 15 * 60 ∨
      estimate_travel_time origin destination = 30 * 60 ∨
      estimate_travel_time origin destination = 60 * 60) := by
  unfold estimate_travel_time
  split_ifs with h1 h2 h3 <;>
    refine ⟨?_, ?_, ?_, ?_, ?_⟩ <;> intros <;> first | decide | tauto

/-- Witness for `claim_C2_amended`: one concrete pair per tier. -/
theorem claim_C2_amended_witness :
    estimate_travel_time "12 main st, paris" "12 main st, lyon" = 5 * 60 ∧
    estimate_travel_time "1 a st, centre, paris" "2 b st, centre, paris" = 15 * 60 ∧
    estimate_travel_time "1 a st, paris" "2 b st, paris" = 30 * 60 ∧
    estimate_travel_time "paris" "lyon" = 60 * 60 :=
  ⟨(claim_C2_amended _ _).1 (by decide),
   (claim_C2_amended _ _).2.1 (by decide) (by decide),
   (claim_C2_amended _ _).2.2.1 (by decide) (by decide) (by decide),
   (claim_C2_amended _ _).2.2.2.1 (by decide) (by decide) (by decide)⟩

/-- C8: `calculate_travel_time` returns a zero duration, on any cache,
whenever either location is absent, and whenever both are present with
identical normalized forms (in particular for `estimate(A, A)`). -/
theorem claim_C8_zero_travel (cache : TravelCache) (origin destination : Option String) :
    ((origin = none ∨ destination = none) →
      (calculate_travel_time cache origin destination).1 = 0) ∧
    (∀ a b, origin = some a → destination = some b →
      normalize_location a = normalize_location b →
      (calculate_travel_time cache origin destination).1 = 0) := by
  constructor
  · rintro (rfl | rfl) <;> simp [calculate_travel_time, pyTruthy]
  · rintro a b rfl rfl hn
    unfold calculate_travel_time
    by_cases ha : pyTruthy (some a)
    · by_cases hb : pyTruthy (some b)
      · simp only [ha, hb, not_true, or_false, if_false]
        simp [hn]
      · simp [hb]
    · simp [ha]

/-- Witness for `claim_C8_zero_travel`: an absent destination, and the pair
`"Paris  3"` / `" paris 3"` whose normalized forms coincide, both give 0. -/
theorem claim_C8_zero_travel_witness :
    (calculate_travel_time [] (some "lyon") none).1 = 0 ∧
    (calculate_travel_time [] (some "Paris  3") (some " paris 3")).1 = 0 :=
  ⟨(claim_C8_zero_travel [] (some "lyon") none).1 (Or.inr rfl),
   (claim_C8_zero_travel [] (some "Paris  3") (some " paris 3")).2
     "Paris  3" " paris 3" rfl rfl (by decide)⟩

/-- C10: the heuristic tiering is commutative, and — with the external API
disabled and the cache empty — `calculate_travel_time` is commutative too. -/
theorem claim_C10_travel_commutative :
    (∀ a b, estimate_travel_time a b = estimate_travel_time b a) ∧
    (∀ origin destination : Option String,
      (calculate_travel_time [] origin destination).1 =
        (calculate_travel_time [] destination origin).1) := by
  refine ⟨estimate_travel_time_comm, ?_⟩
  intro o d
  simp only [calculate_travel_time]
  by_cases h1 : pyTruthy o
  · by_cases h2 : pyTruthy d
    · have hod : ¬(¬pyTruthy o = true ∨ ¬pyTruthy d = true) := by simp [h1, h2]
      have hdo : ¬(¬pyTruthy d = true ∨ ¬pyTruthy o = true) := by simp [h1, h2]
      rw [if_neg hod, if_neg hdo]
      by_cases he : normalize_location (o.getD "") = normalize_location (d.getD "")
      · rw [if_pos he, if_pos he.symm]
      · rw [if_neg he, if_neg (Ne.symm he)]
        exact estimate_travel_time_comm _ _
    · have hod : (¬pyTruthy o = true ∨ ¬pyTruthy d = true) := Or.inr (by simp [h2])
      have hdo : (¬pyTruthy d = true ∨ ¬pyTruthy o = true) := Or.inl (by simp [h2])
      rw [if_pos hod, if_pos hdo]
  · have hod : (¬pyTruthy o = true ∨ ¬pyTruthy d = true) := Or.inl (by simp [h1])
    have hdo : (¬pyTruthy d = true ∨ ¬pyTruthy o = true) := Or.inr (by simp [h1])
    rw [if_pos hod, if_pos hdo]

/-! ## Data model (`backend/models/database.py`) -/

/-- The `Event` ORM row, restricted to the fields the scheduling/rules core
reads (description, recurrence and audit fields it never touches are
omitted).  Timestamps are naive, in seconds. -/
structure Event where
  id : Nat
  title : String
  start_time : Int
  end_time : Int
  location : Option String
  status : String
  is_flexible : Bool
  created_at : Int
  updated_at : Int
  category_id : Nat
  user_id : Nat
deriving DecidableEq, Repr

/-- The `Category` ORM row (fields read by the rules engine). -/
structure Category where
  id : Nat
  name : String
deriving DecidableEq, Repr

/-! ## SmartSchedulerService (`backend/services/smart_scheduler_service.py`)

The service's travel estimates go through its `TravelService` instance; by
`calculate_travel_time_consistent` the returned duration on any reachable
(consistent) cache equals the pure `travelTime`, which is what the scheduler
definitions below use. -/

/-- `TimeConstraint` (optional times-of-day are seconds since midnight). -/
structure TimeConstraint where
  not_before : Option Int := none
  not_after : Option Int := none
  morning_only : Bool := false
  afternoon_only : Bool := false
  evening_only : Bool := false
deriving DecidableEq, Repr

/-- `TimeConstraint.is_valid_time`. -/
def TimeConstraint.is_valid_time (c : TimeConstraint) (dt : Int) : Bool :=
  let hour := hourOf dt
  if c.morning_only ∧ ¬ (6 ≤ hour ∧ hour < 12) then false
  else if c.afternoon_only ∧ ¬ (12 ≤ hour ∧ hour < 18) then false
  else if c.evening_only ∧ ¬ (18 ≤ hour ∧ hour < 22) then false
  else if (match c.not_before with
           | some nb => decide (timeOfDay dt < nb)
           | none => false) then false
  else if (match c.not_after with
           | some na => decide (na < timeOfDay dt)
           | none => false) then false
  else true

/-- Sort by `start_time` (`order_by(Event.start_time)`; stable). -/
def sortByStart (evs : List Event) : List Event :=
  evs.insertionSort (fun a b => a.start_time ≤ b.start_time)

/-- `SmartSchedulerService._get_day_events`: all events of the user whose
start lies in the calendar day of `date`, ordered by start time (note: no
status filter). -/
def _get_day_events (evs : List Event) (user_id : Nat) (date : Int) : List Event :=
  sortByStart (evs.filter fun e =>
    e.user_id = user_id ∧ dayStart date ≤ e.start_time ∧ e.start_time < dayStart date + 86400)

/-- The event query in `_is_slot_available`: events of the user satisfying
`(start < end_time ∧ end > start_time) ∨ (start < start_time ∧ end > start_time)`,
ordered by start. -/
def slotQuery (evs : List Event) (user_id : Nat) (start_time end_time : Int) : List Event :=
  sortByStart (evs.filter fun e =>
    e.user_id = user_id ∧
      ((e.start_time < end_time ∧ start_time < e.end_time) ∨
        (e.start_time < start_time ∧ start_time < e.end_time)))

/-- The per-event checks in `_is_slot_available`'s loop, in source order:
direct overlap, then the travel check against an event ending before the
slot, then the travel check against an event starting after it. -/
def slotEventOk (start_time end_time : Int) (location : Option String) (e : Event) : Bool :=
  if e.start_time < end_time ∧ start_time < e.end_time then false
  else if e.end_time ≤ start_time ∧ pyTruthy location ∧ pyTruthy e.location ∧
      start_time < e.end_time + travelTime e.location location then false
  else if end_time ≤ e.start_time ∧ pyTruthy location ∧ pyTruthy e.location ∧
      e.start_time < end_time + travelTime location e.location then false
  else true

/-- `SmartSchedulerService._is_slot_available`. -/
def _is_slot_available (evs : List Event) (user_id : Nat)
    (start_time end_time : Int) (location : Option String) : Bool :=
  (slotQuery evs user_id start_time end_time).all (slotEventOk start_time end_time location)

/-- One entry of the `travel_warnings` list built by `_check_travel_conflicts`. -/
structure TravelWarning where
  kind : String
  event : String
  travel_minutes : Int
  available_minutes : Int
deriving DecidableEq, Repr

/-- `SmartSchedulerService._check_travel_conflicts`: warn about the closest
event ending at or before the slot and the closest event starting at or
after it, when the travel time exceeds the gap. -/
def _check_travel_conflicts (evs : List Event) (user_id : Nat)
    (start_time end_time : Int) (location : Option String) : List TravelWarning :=
  if ¬ pyTruthy location then []
  else
    let prevs := (evs.filter fun e => e.user_id = user_id ∧ e.end_time ≤ start_time)
      |>.insertionSort (fun a b => b.end_time ≤ a.end_time)
    let nexts := (evs.filter fun e => e.user_id = user_id ∧ end_time ≤ e.start_time)
      |>.insertionSort (fun a b => a.start_time ≤ b.start_time)
    let before :=
      match prevs.head? with
      | some prev_event =>
        if pyTruthy prev_event.location then
          let travel := travelTime prev_event.location location
          let available := start_time - prev_event.end_time
          if available < travel then
            [⟨"insufficient_travel_time_before", prev_event.title, travel / 60, available / 60⟩]
          else []
        else []
      | none => []
    let after :=
      match nexts.head? with
      | some next_event =>
        if pyTruthy next_event.location then
          let travel := travelTime location next_event.location
          let available := next_event.start_time - end_time
          if available < travel then
            [⟨"insufficient_travel_time_after", next_event.title, travel / 60, available / 60⟩]
          else []
        else []
      | none => []
    before ++ after

/-- One conflict record built by `detect_travel_conflicts` (the free-text
`message` string is presentation-only and omitted). -/
structure TravelConflict where
  current_event_id : Nat
  current_event_title : String
  current_event_end : Int
  current_event_location : Option String
  next_event_id : Nat
  next_event_title : String
  next_event_start : Int
  next_event_location : Option String
  next_event_is_flexible : Bool
  travel_time_minutes : Int
  shortage_minutes : Int
  suggested_new_time : Int
deriving DecidableEq, Repr

instance : Inhabited Event :=
  ⟨⟨0, "", 0, 0, none, "", false, 0, 0, 0, 0⟩⟩

/-- The record appended for the adjacent pair `(current_event, next_event)`
when its travel time exceeds the gap. -/
def mkTravelConflict (current_event next_event : Event) : TravelConflict :=
  let travel := travelTime current_event.location next_event.location
  let available := next_event.start_time - current_event.end_time
  { current_event_id := current_event.id
    current_event_title := current_event.title
    current_event_end := current_event.end_time
    current_event_location := current_event.location
    next_event_id := next_event.id
    next_event_title := next_event.title
    next_event_start := next_event.start_time
    next_event_location := next_event.location
    next_event_is_flexible := next_event.is_flexible
    travel_time_minutes := travel / 60
    shortage_minutes := (travel - available) / 60
    suggested_new_time := current_event.end_time + travel }

/-- `SmartSchedulerService.detect_travel_conflicts`: for the day's events
ordered by start, one conflict per adjacent pair whose required travel time
exceeds the gap between them. -/
def detect_travel_conflicts (evs : List Event) (user_id : Nat) (date : Int) :
    List TravelConflict :=
  let events := _get_day_events evs user_id date
  if events.length < 2 then []
  else
    (List.range (events.length - 1)).filterMap fun i =>
      let current_event := events.getD i default
      let next_event := events.getD (i + 1) default
      if next_event.start_time - current_event.end_time <
          travelTime current_event.location next_event.location then
        some (mkTravelConflict current_event next_event)
      else none

/-- `SmartSchedulerService._get_nearby_events` with its default
`max_distance_minutes = 30` (`travel.total_seconds()/60 <= 30` ⟺
`travel ≤ 1800` seconds). -/
def _get_nearby_events (evs : List Event) (user_id : Nat)
    (reference_time : Int) (location : String) : List Event :=
  (_get_day_events evs user_id reference_time).filter fun e =>
    pyTruthy e.location ∧ travelTime (some location) e.location ≤ 30 * 60

/-- `SmartSchedulerService._calculate_slot_score` (the `end_time` argument is
passed but never read, as in the source). -/
def _calculate_slot_score (evs : List Event) (user_id : Nat)
    (start_time end_time : Int) (location : Option String)
    (preferred_start : Int) (day_offset : Nat) : ℚ :=
  let score : ℚ := 100
  let time_diff : ℚ := |((start_time - preferred_start : Int) : ℚ)|
  let score := score - min (time_diff / 3600) 50
  let score := score +
    (if pyTruthy location then
      ((_get_nearby_events evs user_id start_time (location.getD "")).length : ℚ) * 10
    else 0)
  score - (day_offset : ℚ) * 5

/-- The iterates of the 15-minute `while current_time + duration <= end_of_search`
loop, starting at `base`. -/
def slotTimesFrom (base end_of_search duration : Int) : List Int :=
  if h : base + duration ≤ end_of_search then
    (List.range (((end_of_search - duration - base) / 900).toNat + 1)).map
      fun k => base + 900 * (k : Int)
  else []

/-- The candidate start times `_find_optimal_slot` walks on day
`day_offset`: from `max(preferred_start.hour, 8)` on day 0 and from hour 8
afterwards, up to hour 20, in 15-minute steps. -/
def dayCandidates (preferred_start : Int) (duration : Int) (day_offset : Nat) : List Int :=
  let search_date := dayStart preferred_start + 86400 * (day_offset : Int)
  let start_hour : Int := if 0 < day_offset then 8 else max (hourOf preferred_start) 8
  slotTimesFrom (search_date + 3600 * start_hour) (search_date + 3600 * 20) duration

/-- `SmartSchedulingResult` (the localized `message` keeps its literal text;
`strftime`-formatted timestamps are rendered as the raw second count). -/
structure SmartSchedulingResult where
  success : Bool
  scheduled_time : Option Int := none
  message : String := ""
  travel_warnings : List TravelWarning := []
  conflicts : List TravelConflict := []
  optimization_applied : Bool := false
deriving DecidableEq, Repr

/-- Stand-in for `strftime` display formatting (presentation-only). -/
def formatTimestamp (t : Int) : String := toString t

/-- All `(candidate start, day offset)` pairs the nested day × 15-minute loop
of `_find_optimal_slot` enumerates, in evaluation order. -/
def slotCandidates (preferred_start : Int) (duration : Int) (search_days : Nat) :
    List (Int × Nat) :=
  (List.range search_days).flatMap fun d =>
    (dayCandidates preferred_start duration d).map fun t => (t, d)

/-- The loop body of `_find_optimal_slot`: skip constraint-violating and
unavailable candidates, score the rest and keep the first strict improvement
over the best score so far (initially `-1`). -/
def optimalStep (evs : List Event) (user_id : Nat) (duration : Int)
    (preferred_start : Int) (location : Option String) (constraints : TimeConstraint)
    (acc : Option SmartSchedulingResult × ℚ) (c : Int × Nat) :
    Option SmartSchedulingResult × ℚ :=
  if ¬ constraints.is_valid_time c.1 then acc
  else if _is_slot_available evs user_id c.1 (c.1 + duration) location then
    let score := _calculate_slot_score evs user_id c.1 (c.1 + duration) location
      preferred_start c.2
    if acc.2 < score then
      (some { success := true
              scheduled_time := some c.1
              message := "Créneau optimal trouvé le " ++ formatTimestamp c.1
              travel_warnings := _check_travel_conflicts evs user_id c.1 (c.1 + duration) location
              optimization_applied := true }, score)
    else acc
  else acc

/-- `SmartSchedulerService._find_optimal_slot`. -/
def _find_optimal_slot (evs : List Event) (user_id : Nat) (duration : Int)
    (preferred_start : Int) (location : Option String) (priority : String)
    (constraints : TimeConstraint) (search_days : Nat) : Option SmartSchedulingResult :=
  ((slotCandidates preferred_start duration search_days).foldl
    (optimalStep evs user_id duration preferred_start location constraints)
    (none, -1)).1

/-- `SmartSchedulerService.find_best_slot` (the `priority` enum is its string
value `"low" | "medium" | "high"`; `category_id` is accepted and ignored, as
in the source). -/
def find_best_slot (evs : List Event) (user_id : Nat) (duration : Int)
    (preferred_start : Int) (priority : String) (location : Option String)
    (category_id : Option Nat) (constraints : TimeConstraint) (search_days : Nat) :
    SmartSchedulingResult :=
  let preferred :=
    if _is_slot_available evs user_id preferred_start (preferred_start + duration) location ∧
        constraints.is_valid_time preferred_start then
      let travel_warnings := _check_travel_conflicts evs user_id preferred_start
        (preferred_start + duration) location
      if travel_warnings = [] ∨ priority = "high" then
        some { success := true
               scheduled_time := some preferred_start
               message := "Créneau préféré disponible"
               travel_warnings := travel_warnings }
      else none
    else none
  match preferred with
  | some r => r
  | none =>
    match _find_optimal_slot evs user_id duration preferred_start location priority
        constraints search_days with
    | some best_slot => best_slot
    | none =>
      { success := false
        message := "Aucun créneau disponible trouvé dans les " ++ toString search_days
          ++ " prochains jours" }

/-! ### Claim C1: what `_is_slot_available` actually checks -/

/-- The availability predicate as claim C1 words it (unavailable ⇔ overlap,
or — when a location is given — insufficient travel gap from the closest
events before/after), for the refinement comparison with
`_is_slot_available`. -/
def claimedSlotUnavailable (evs : List Event) (user_id : Nat)
    (start_time end_time : Int) (location : Option String) : Bool :=
  (evs.any fun ev => ev.user_id = user_id ∧
    ev.start_time < end_time ∧ start_time < ev.end_time) ||
  (location.isSome &&
    ((evs.any fun ev => ev.user_id = user_id ∧ ev.end_time ≤ start_time ∧
        pyTruthy ev.location ∧
        start_time - ev.end_time < travelTime ev.location location) ||
      (evs.any fun ev => ev.user_id = user_id ∧ end_time ≤ ev.start_time ∧
        pyTruthy ev.location ∧
        ev.start_time - end_time < travelTime location ev.location)))

/-- Every event returned by `_is_slot_available`'s query overlaps the slot
(for a non-degenerate slot): its `WHERE` clause
`(start < end_time ∧ end > start_time) ∨ (start < start_time ∧ end > start_time)`
has a second disjunct subsumed by the first when `start_time < end_time`. -/
theorem slotQuery_overlaps {evs : List Event} {user_id : Nat}
    {start_time end_time : Int} (h : start_time < end_time) {ev : Event}
    (hm : ev ∈ slotQuery evs user_id start_time end_time) :
    ev.start_time < end_time ∧ start_time < ev.end_time := by
  unfold slotQuery sortByStart at hm
  rw [List.mem_insertionSort] at hm
  have := (List.mem_filter.mp hm).2
  simp only [decide_eq_true_eq] at this
  rcases this with ⟨-, (h1 | h2)⟩
  · exact h1
  · exact ⟨lt_trans h2.1 h, h2.2⟩

/-- The event blocking the failing input of C1: it ends exactly when the
requested slot starts, in a different city. -/
def c1Event : Event :=
  { id := 1, title := "matin", start_time := 8 * 3600, end_time := 9 * 3600,
    location := some "lyon", status := "pending", is_flexible := true,
    created_at := 0, updated_at := 0, category_id := 1, user_id := 1 }

/-- C1: the travel branches of `_is_slot_available` are dead code — the query
only returns events overlapping the slot, and each of those trips the direct
conflict check first, so the location argument never influences the result
(for any positive-duration slot).  At the concrete input — one stored event
`08:00–09:00` in `"lyon"`, requested slot `09:00–10:00` in `"paris"`
(travel 60 min, gap 0) — the code reports the slot available although the
claim's predicate reports it unavailable. -/
theorem claim_C1_availability_ignores_travel :
    (∀ (evs : List Event) (user_id : Nat) (start_time end_time : Int)
      (location location' : Option String), start_time < end_time →
      _is_slot_available evs user_id start_time end_time location =
        _is_slot_available evs user_id start_time end_time location') ∧
    _is_slot_available [c1Event] 1 (9 * 3600) (10 * 3600) (some "paris") = true ∧
    claimedSlotUnavailable [c1Event] 1 (9 * 3600) (10 * 3600) (some "paris") = true := by
  refine ⟨?_, by decide, by decide⟩
  intro evs user_id start_time end_time location location' h
  unfold _is_slot_available
  rcases hq : slotQuery evs user_id start_time end_time with _ | ⟨ev, rest⟩
  · rfl
  · have hdead : ∀ loc ev', ev' ∈ slotQuery evs user_id start_time end_time →
        slotEventOk start_time end_time loc ev' = false := by
      intro loc ev' hm
      have hov := slotQuery_overlaps h hm
      unfold slotEventOk
      rw [if_pos hov]
    have h1 : slotEventOk start_time end_time location ev = false :=
      hdead _ ev (by rw [hq]; exact List.mem_cons_self ev rest)
    have h2 : slotEventOk start_time end_time location' ev = false :=
      hdead _ ev (by rw [hq]; exact List.mem_cons_self ev rest)
    rw [List.all_cons, List.all_cons, h1, h2]
    rfl

/-- Witness for `claim_C1_availability_ignores_travel`: instantiating the
location-independence part at a concrete slot. -/
theorem claim_C1_availability_ignores_travel_witness :
    _is_slot_available [c1Event] 1 (9 * 3600) (10 * 3600) (some "paris") =
      _is_slot_available [c1Event] 1 (9 * 3600) (10 * 3600) none :=
  claim_C1_availability_ignores_travel.1 [c1Event] 1 (9 * 3600) (10 * 3600)
    (some "paris") none (by norm_num)

/-! ### Claim C3: `detect_travel_conflicts` -/

/-- Adjacent-pair characterization of an index loop `for i in range(len(l)-1)`
over `l.getD`. -/
theorem range_filterMap_adjacent {β : Type _} (g : Event → Event → Option β) :
    ∀ l : List Event,
      (List.range (l.length - 1)).filterMap
          (fun i => g (l.getD i default) (l.getD (i + 1) default)) =
        (l.zip l.tail).filterMap (fun p => g p.1 p.2)
  | [] => rfl
  | [_] => rfl
  | a :: b :: t => by
    have ih := range_filterMap_adjacent g (b :: t)
    rw [List.length_cons, Nat.add_sub_cancel] at ih
    have hlen : (a :: b :: t).length - 1 = t.length + 1 := by simp
    rw [hlen, List.range_succ_eq_map, List.filterMap_cons, List.filterMap_map]
    rw [show ((fun i => g ((a :: b :: t).getD i default)
        ((a :: b :: t).getD (i + 1) default)) ∘ (· + 1)) =
        (fun i => g ((b :: t).getD i default) ((b :: t).getD (i + 1) default))
      from funext fun i => rfl] at *
    rw [ih]
    show (match g a b with
      | none => ((b :: t).zip (b :: t).tail).filterMap (fun p => g p.1 p.2)
      | some c => c :: ((b :: t).zip (b :: t).tail).filterMap (fun p => g p.1 p.2)) =
      ((a, b) :: (b :: t).zip t).filterMap (fun p => g p.1 p.2)
    rw [List.filterMap_cons]
    rfl

/-- The day-conflict list as claim C3 words it: an adjacent pair conflicts
exactly when **both events have non-empty locations** and the travel time
exceeds the gap.  Stated for the refinement comparison with
`detect_travel_conflicts`. -/
def claimed_day_conflicts (evs : List Event) (user_id : Nat) (date : Int) :
    List TravelConflict :=
  let events := _get_day_events evs user_id date
  (events.zip events.tail).filterMap fun p =>
    if pyTruthy p.1.location ∧ pyTruthy p.2.location ∧
        p.2.start_time - p.1.end_time < travelTime p.1.location p.2.location then
      some (mkTravelConflict p.1 p.2)
    else none

/-- First event of the C3 counterexample day: `10:00–12:00`, no location. -/
def c3EventA : Event :=
  { id := 1, title := "a", start_time := 10 * 3600, end_time := 12 * 3600,
    location := none, status := "pending", is_flexible := true,
    created_at := 0, updated_at := 0, category_id := 1, user_id := 1 }

/-- Second event of the C3 counterexample day: `11:00–11:30`, no location
(it overlaps the first, so the gap to it is negative). -/
def c3EventB : Event :=
  { id := 2, title := "b", start_time := 11 * 3600, end_time := 11 * 3600 + 1800,
    location := none, status := "pending", is_flexible := true,
    created_at := 0, updated_at := 0, category_id := 1, user_id := 1 }

/-- C3 (counterexample): for two overlapping same-day events with **no**
locations, the computed travel time is 0 and the gap is negative, so
`detect_travel_conflicts` emits a conflict even though the claim — which
requires both locations non-empty — predicts none. -/
theorem claim_C3_counterexample :
    claimed_day_conflicts [c3EventA, c3EventB] 1 (10 * 3600) = [] ∧
    (detect_travel_conflicts [c3EventA, c3EventB] 1 (10 * 3600)).length = 1 ∧
    ((detect_travel_conflicts [c3EventA, c3EventB] 1 (10 * 3600)).all fun c =>
      c.current_event_location = none ∧ c.next_event_location = none) = true := by
  refine ⟨by decide, by decide, by decide⟩

/-- C3 (amended): for the day's events ordered by start time,
`detect_travel_conflicts` emits one conflict per adjacent pair exactly when
the computed travel time — which is zero when either location is missing —
exceeds the gap between them (so it also fires on overlapping adjacent
events regardless of locations); each conflict carries
`shortfall = travel − gap` and `suggested new start = first end + travel`,
and a day with fewer than two events yields no conflicts. -/
theorem claim_C3_amended (evs : List Event) (user_id : Nat) (date : Int) :
    ((_get_day_events evs user_id date).length < 2 →
      detect_travel_conflicts evs user_id date = []) ∧
    detect_travel_conflicts evs user_id date =
      ((_get_day_events evs user_id date).zip (_get_day_events evs user_id date).tail).filterMap
        (fun p =>
          if p.2.start_time - p.1.end_time < travelTime p.1.location p.2.location then
            some (mkTravelConflict p.1 p.2)
          else none) ∧
    ∀ c ∈ detect_travel_conflicts evs user_id date,
      ∃ a b,
        (a, b) ∈ (_get_day_events evs user_id date).zip (_get_day_events evs user_id date).tail ∧
        b.start_time - a.end_time < travelTime a.location b.location ∧
        c = mkTravelConflict a b ∧
        c.suggested_new_time = a.end_time + travelTime a.location b.location ∧
        c.shortage_minutes =
          (travelTime a.location b.location - (b.start_time - a.end_time)) / 60 := by
  have hchar : detect_travel_conflicts evs user_id date =
      ((_get_day_events evs user_id date).zip (_get_day_events evs user_id date).tail).filterMap
        (fun p =>
          if p.2.start_time - p.1.end_time < travelTime p.1.location p.2.location then
            some (mkTravelConflict p.1 p.2)
          else none) := by
    simp only [detect_travel_conflicts]
    split
    · rename_i hlt
      rcases hl : _get_day_events evs user_id date with _ | ⟨a, _ | ⟨b, t⟩⟩
      · rfl
      · rfl
      · rw [hl] at hlt
        simp only [List.length_cons] at hlt
        omega
    · exact range_filterMap_adjacent
        (fun x y => if y.start_time - x.end_time < travelTime x.location y.location then
          some (mkTravelConflict x y) else none)
        (_get_day_events evs user_id date)
  refine ⟨?_, hchar, ?_⟩
  · intro hlt
    rw [hchar]
    rcases hl : _get_day_events evs user_id date with _ | ⟨a, _ | ⟨b, t⟩⟩
    · rfl
    · rfl
    · rw [hl] at hlt
      simp only [List.length_cons] at hlt
      omega
  · intro c hc
    rw [hchar] at hc
    rcases List.mem_filterMap.mp hc with ⟨p, hp, hg⟩
    by_cases hcond : p.2.start_time - p.1.end_time < travelTime p.1.location p.2.location
    · rw [if_pos hcond] at hg
      have hc2 : c = mkTravelConflict p.1 p.2 := (Option.some.inj hg).symm
      subst hc2
      exact ⟨p.1, p.2, hp, hcond, rfl, rfl, rfl⟩
    · rw [if_neg hcond] at hg; cases hg

/-- Witness for `claim_C3_amended`: the empty-day case and the concrete
two-event conflict of the counterexample store. -/
theorem claim_C3_amended_witness :
    detect_travel_conflicts [] 1 0 = [] ∧
    ∃ a b,
      (a, b) ∈ (_get_day_events [c3EventA, c3EventB] 1 (10 * 3600)).zip
        (_get_day_events [c3EventA, c3EventB] 1 (10 * 3600)).tail ∧
      b.start_time - a.end_time < travelTime a.location b.location ∧
      mkTravelConflict c3EventA c3EventB = mkTravelConflict a b ∧
      (mkTravelConflict c3EventA c3EventB).suggested_new_time =
        a.end_time + travelTime a.location b.location ∧
      (mkTravelConflict c3EventA c3EventB).shortage_minutes =
        (travelTime a.location b.location - (b.start_time - a.end_time)) / 60 :=
  ⟨(claim_C3_amended [] 1 0).1 (by decide),
   (claim_C3_amended [c3EventA, c3EventB] 1 (10 * 3600)).2.2
     (mkTravelConflict c3EventA c3EventB) (by decide)⟩

/-! ### Claim C5: scoring and selection in `_find_optimal_slot` -/

/-- A candidate is evaluated (scored) exactly when it satisfies the
constraint predicate and the availability check. -/
def candidateEvaluated (evs : List Event) (user_id : Nat) (duration : Int)
    (location : Option String) (constraints : TimeConstraint) (c : Int × Nat) : Bool :=
  constraints.is_valid_time c.1 && _is_slot_available evs user_id c.1 (c.1 + duration) location

/-- The evaluated candidates, in evaluation order. -/
def evaluatedCandidates (evs : List Event) (user_id : Nat) (duration : Int)
    (preferred_start : Int) (location : Option String) (constraints : TimeConstraint)
    (search_days : Nat) : List (Int × Nat) :=
  (slotCandidates preferred_start duration search_days).filter
    (candidateEvaluated evs user_id duration location constraints)

/-- The score of a candidate. -/
def candidateScore (evs : List Event) (user_id : Nat) (duration : Int)
    (preferred_start : Int) (location : Option String) (c : Int × Nat) : ℚ :=
  _calculate_slot_score evs user_id c.1 (c.1 + duration) location preferred_start c.2

/-- The result record built when a candidate becomes the new best. -/
def candidateResult (evs : List Event) (user_id : Nat) (duration : Int)
    (location : Option String) (c : Int × Nat) : SmartSchedulingResult :=
  { success := true
    scheduled_time := some c.1
    message := "Créneau optimal trouvé le " ++ formatTimestamp c.1
    travel_warnings := _check_travel_conflicts evs user_id c.1 (c.1 + duration) location
    optimization_applied := true }

theorem optimalStep_eq (evs : List Event) (user_id : Nat) (duration : Int)
    (preferred_start : Int) (location : Option String) (constraints : TimeConstraint)
    (acc : Option SmartSchedulingResult × ℚ) (c : Int × Nat) :
    optimalStep evs user_id duration preferred_start location constraints acc c =
      if candidateEvaluated evs user_id duration location constraints c then
        (if acc.2 < candidateScore evs user_id duration preferred_start location c then
          (some (candidateResult evs user_id duration location c),
            candidateScore evs user_id duration preferred_start location c)
        else acc)
      else acc := by
  unfold optimalStep candidateEvaluated candidateScore candidateResult
  by_cases h1 : constraints.is_valid_time c.1
  · by_cases h2 : _is_slot_available evs user_id c.1 (c.1 + duration) location
    · simp [h1, h2]
    · simp [h1, h2]
  · simp [h1]

/-- Folding a function that skips elements failing `p` equals folding over
the filtered list. -/
theorem foldl_skip_eq_foldl_filter {α β : Type _} (p : α → Bool) (f : β → α → β) :
    ∀ (l : List α) (b : β),
      l.foldl (fun acc c => if p c then f acc c else acc) b = (l.filter p).foldl f b
  | [], _ => rfl
  | c :: l, b => by
    rw [List.foldl_cons, List.filter_cons]
    by_cases hp : p c
    · rw [if_pos hp, if_pos hp, List.foldl_cons, foldl_skip_eq_foldl_filter p f l]
    · rw [if_neg hp, if_neg hp, foldl_skip_eq_foldl_filter p f l]

/-- The strict-improvement fold keeps the accumulator untouched when no
element beats the incoming score, and otherwise ends on the **first** element
achieving the maximum: every earlier element scores strictly less, every
later element at most as much. -/
theorem foldl_best_spec {α β : Type _} (f : α → ℚ) (g : α → β) :
    ∀ (m : List α) (b₀ : Option β) (s₀ : ℚ),
      (m.foldl (fun acc c => if acc.2 < f c then (some (g c), f c) else acc) (b₀, s₀) =
          (b₀, s₀) ∧ ∀ c ∈ m, f c ≤ s₀) ∨
      (∃ m₁ cw m₂, m = m₁ ++ cw :: m₂ ∧
        m.foldl (fun acc c => if acc.2 < f c then (some (g c), f c) else acc) (b₀, s₀) =
          (some (g cw), f cw) ∧
        s₀ < f cw ∧ (∀ y ∈ m₁, f y < f cw) ∧ (∀ y ∈ m₂, f y ≤ f cw))
  | [], b₀, s₀ => Or.inl ⟨rfl, by simp⟩
  | c :: m, b₀, s₀ => by
    rw [List.foldl_cons]
    by_cases hc : s₀ < f c
    · rw [if_pos hc]
      rcases foldl_best_spec f g m (some (g c)) (f c) with ⟨heq, hle⟩ | ⟨m₁, cw, m₂, hm, heq, hlt, hpre, hpost⟩
      · exact Or.inr ⟨[], c, m, rfl, heq, hc, by simp, hle⟩
      · refine Or.inr ⟨c :: m₁, cw, m₂, by rw [hm, List.cons_append], heq, lt_trans hc hlt, ?_, hpost⟩
        intro y hy
        rcases List.mem_cons.mp hy with rfl | hy
        · exact hlt
        · exact hpre y hy
    · rw [if_neg hc]
      rcases foldl_best_spec f g m b₀ s₀ with ⟨heq, hle⟩ | ⟨m₁, cw, m₂, hm, heq, hlt, hpre, hpost⟩
      · refine Or.inl ⟨heq, ?_⟩
        intro y hy
        rcases List.mem_cons.mp hy with rfl | hy
        · exact le_of_not_lt hc
        · exact hle y hy
      · refine Or.inr ⟨c :: m₁, cw, m₂, by rw [hm, List.cons_append], heq, hlt, ?_, hpost⟩
        intro y hy
        rcases List.mem_cons.mp hy with rfl | hy
        · exact lt_of_le_of_lt (le_of_not_lt hc) hlt
        · exact hpre y hy

/-- The instantiated strict-improvement fold underlying `_find_optimal_slot`. -/
theorem _find_optimal_slot_eq_filtered_fold (evs : List Event) (user_id : Nat)
    (duration : Int) (preferred_start : Int) (location : Option String)
    (priority : String) (constraints : TimeConstraint) (search_days : Nat) :
    _find_optimal_slot evs user_id duration preferred_start location priority
        constraints search_days =
      ((evaluatedCandidates evs user_id duration preferred_start location constraints
          search_days).foldl
        (fun acc c =>
          if acc.2 < candidateScore evs user_id duration preferred_start location c then
            (some (candidateResult evs user_id duration location c),
              candidateScore evs user_id duration preferred_start location c)
          else acc)
        (none, -1)).1 := by
  unfold _find_optimal_slot evaluatedCandidates
  rw [show optimalStep evs user_id duration preferred_start location constraints =
      fun acc c =>
        if candidateEvaluated evs user_id duration location constraints c then
          (if acc.2 < candidateScore evs user_id duration preferred_start location c then
            (some (candidateResult evs user_id duration location c),
              candidateScore evs user_id duration preferred_start location c)
          else acc)
        else acc
    from funext fun acc => funext fun c =>
      optimalStep_eq evs user_id duration preferred_start location constraints acc c]
  rw [foldl_skip_eq_foldl_filter]

/-- C5 (amended): every evaluated candidate's score is
`100 − min(|start − preferred|/3600, 50) − 5·dayOffset + 10·(reachable same-day
events)`, and the fallback search returns the **earliest candidate with the
highest score provided that score exceeds the initial best score −1**; when
every evaluated candidate scores ≤ −1 the search returns no candidate even
though candidates exist.  Ties keep the earliest candidate. -/
theorem claim_C5_amended :
    (∀ (evs : List Event) (user_id : Nat) (start_time end_time preferred_start : Int)
      (day_offset : Nat) (l : String), l ≠ "" →
      _calculate_slot_score evs user_id start_time end_time (some l) preferred_start
          day_offset =
        100 - min (|((start_time - preferred_start : Int) : ℚ)| / 3600) 50
          - 5 * (day_offset : ℚ)
          + 10 * (((_get_day_events evs user_id start_time).filter fun e =>
              pyTruthy e.location ∧ travelTime (some l) e.location ≤ 30 * 60).length : ℚ)) ∧
    (∀ (evs : List Event) (user_id : Nat) (duration : Int) (preferred_start : Int)
      (location : Option String) (priority : String) (constraints : TimeConstraint)
      (search_days : Nat),
      (_find_optimal_slot evs user_id duration preferred_start location priority
          constraints search_days = none →
        ∀ c ∈ evaluatedCandidates evs user_id duration preferred_start location
          constraints search_days,
          candidateScore evs user_id duration preferred_start location c ≤ -1) ∧
      (∀ r, _find_optimal_slot evs user_id duration preferred_start location priority
          constraints search_days = some r →
        ∃ m₁ cw m₂,
          evaluatedCandidates evs user_id duration preferred_start location constraints
              search_days = m₁ ++ cw :: m₂ ∧
          r = candidateResult evs user_id duration location cw ∧
          r.scheduled_time = some cw.1 ∧
          (-1 : ℚ) < candidateScore evs user_id duration preferred_start location cw ∧
          (∀ y ∈ m₁, candidateScore evs user_id duration preferred_start location y <
            candidateScore evs user_id duration preferred_start location cw) ∧
          (∀ y ∈ m₂, candidateScore evs user_id duration preferred_start location y ≤
            candidateScore evs user_id duration preferred_start location cw))) := by
  constructor
  · intro evs user_id s e pref d l hl
    unfold _calculate_slot_score
    rw [if_pos (show pyTruthy (some l) = true by simpa [pyTruthy] using hl)]
    unfold _get_nearby_events
    simp only [Option.getD_some]
    ring
  · intro evs user_id duration pref loc priority cset days
    have hfold := _find_optimal_slot_eq_filtered_fold evs user_id duration pref loc
      priority cset days
    rcases foldl_best_spec
        (candidateScore evs user_id duration pref loc)
        (candidateResult evs user_id duration loc)
        (evaluatedCandidates evs user_id duration pref loc cset days) none (-1) with
      ⟨heq, hle⟩ | ⟨m₁, cw, m₂, hm, heq, hgt, hpre, hpost⟩
    · constructor
      · intro _ c hc
        exact hle c hc
      · intro r hr
        rw [hfold, heq] at hr
        cases hr
    · constructor
      · intro hnone
        rw [hfold, heq] at hnone
        cases hnone
      · intro r hr
        rw [hfold, heq] at hr
        refine ⟨m₁, cw, m₂, hm, (Option.some.inj hr).symm, ?_, hgt, hpre, hpost⟩
        rw [← Option.some.inj hr]
        rfl

/-- Witness for `claim_C5_amended`: the score formula at a one-event day, and
the selection at a store with a single evaluated candidate day. -/
theorem claim_C5_amended_witness :
    _calculate_slot_score [c1Event] 1 (9 * 3600) (10 * 3600) (some "paris") (8 * 3600) 2 =
      100 - min (|((9 * 3600 - 8 * 3600 : Int) : ℚ)| / 3600) 50 - 5 * (2 : ℚ)
        + 10 * (((_get_day_events [c1Event] 1 (9 * 3600)).filter fun e =>
            pyTruthy e.location ∧ travelTime (some "paris") e.location ≤ 30 * 60).length : ℚ) :=
  claim_C5_amended.1 [c1Event] 1 (9 * 3600) (10 * 3600) (8 * 3600) 2 "paris"
    (by decide)

/-- The eleven blocking events of the C5 counterexample, one per day
`0..10`, each `07:00–20:00` (so every candidate slot on those days
overlaps). -/
def c5Events : List Event :=
  (List.range 11).map fun d =>
    { id := d + 1, title := "occupé", start_time := (d : Int) * 86400 + 7 * 3600,
      end_time := (d : Int) * 86400 + 20 * 3600, location := none, status := "pending",
      is_flexible := false, created_at := 0, updated_at := 0, category_id := 1,
      user_id := 1 }

/-- C5 (counterexample): an 11-hour request at `08:00` of day 0 with a 12-day
window against `c5Events`: days `0..10` admit no available slot, day 11's
five candidates are all evaluated and score `100 − 50 − 55 = −5 ≤ −1`, so the
search returns `none` — the claim as stated promises the highest-scoring
candidate, which exists. -/
theorem claim_C5_counterexample :
    _find_optimal_slot c5Events 1 (11 * 3600) (8 * 3600) none "medium" {} 12 = none ∧
    evaluatedCandidates c5Events 1 (11 * 3600) (8 * 3600) none {} 12 ≠ [] ∧
    ∀ c ∈ evaluatedCandidates c5Events 1 (11 * 3600) (8 * 3600) none {} 12,
      candidateScore c5Events 1 (11 * 3600) (8 * 3600) none c = -5 := by
  have hev : evaluatedCandidates c5Events 1 (11 * 3600) (8 * 3600) none {} 12 =
      [(979200, 11), (980100, 11), (981000, 11), (981900, 11), (982800, 11)] := by
    decide
  have hsc : ∀ c ∈ evaluatedCandidates c5Events 1 (11 * 3600) (8 * 3600) none {} 12,
      candidateScore c5Events 1 (11 * 3600) (8 * 3600) none c = -5 := by
    rw [hev]
    intro c hc
    have hday : ∀ t : Int, (_get_day_events c5Events 1 t).filter
        (fun e => pyTruthy e.location ∧ travelTime none e.location ≤ 30 * 60) = [] := by
      intro t
      apply List.filter_eq_nil.mpr
      intro e he
      have : pyTruthy e.location = true → False := by
        intro htr
        have hmem := (List.mem_insertionSort _).mp he
        have hmem2 := (List.mem_filter.mp hmem).1
        unfold c5Events at hmem2
        rcases List.mem_map.mp hmem2 with ⟨d, _, rfl⟩
        simp [pyTruthy] at htr
      simp only [Bool.not_eq_true, decide_eq_false_iff_not]
      intro hand
      exact this hand.1
    fin_cases hc <;>
      · show _calculate_slot_score c5Events 1 _ _ none (8 * 3600) 11 = -5
        unfold _calculate_slot_score _get_nearby_events
        rw [if_neg (by simp [pyTruthy])]
        norm_num [min_def]
  refine ⟨?_, by rw [hev]; decide, hsc⟩
  rw [_find_optimal_slot_eq_filtered_fold]
  rcases foldl_best_spec
      (candidateScore c5Events 1 (11 * 3600) (8 * 3600) none)
      (candidateResult c5Events 1 (11 * 3600) none)
      (evaluatedCandidates c5Events 1 (11 * 3600) (8 * 3600) none {} 12) none (-1) with
    ⟨heq, _⟩ | ⟨m₁, cw, m₂, hm, heq, hgt, _, _⟩
  · rw [heq]
  · exfalso
    have hcw : cw ∈ evaluatedCandidates c5Events 1 (11 * 3600) (8 * 3600) none {} 12 := by
      rw [hm]
      exact List.mem_append_right _ (List.mem_cons_self _ _)
    have := hsc cw hcw
    rw [this] at hgt
    norm_num at hgt

/-! ## RulesEngineService (`backend/services/rules_engine_service.py`) -/

/-- The `Suggestion` record.  Modelled from the spec for the parts whose ORM
definition is missing from the source tree (`models/database.py` defines no
`Suggestion` table although the service imports one): per §3, a suggestion
carries identifier, type, title, priority, status (`pending` on creation),
the triggering rule, an optional related event, a creation time equal to the
instant the rule fired, and an expiry time; the free-text description and
JSON `extra_data` payload are presentation-only and omitted.  The fields the
service itself sets (`type`, `title`, `priority`, `status`, `rule_triggered`,
`related_event_id`, `expires_at`) are transcribed from
`_create_break_suggestion` / `_create_balance_suggestion` /
`_create_move_suggestion`. -/
structure Suggestion where
  id : Nat
  user_id : Nat
  type : String
  title : String
  priority : String
  status : String
  rule_triggered : String
  related_event_id : Option Nat
  created_at : Int
  expires_at : Int
deriving DecidableEq, Repr

/-- `RulesEngineService.SUGGESTION_EXPIRY_HOURS`. -/
def SUGGESTION_EXPIRY_HOURS : Int := 24

/-- The `related_event_id` filter of `_suggestion_exists`, applied only when
`event_id` is truthy (`if event_id:` — so `Some 0` behaves like `None`). -/
def matchesEventFilter (event_id : Option Nat) (s : Suggestion) : Bool :=
  match event_id with
  | some eid => if eid ≠ 0 then s.related_event_id = some eid else true
  | none => true

/-- The same-calendar-day window filter of `_suggestion_exists`, applied only
when a reference time is given. -/
def withinReferenceDay (reference_time : Option Int) (s : Suggestion) : Bool :=
  match reference_time with
  | some rt => dayStart rt ≤ s.created_at ∧ s.created_at < dayStart rt + 86400
  | none => true

/-- `RulesEngineService._suggestion_exists`: a pending, unexpired suggestion
of the same user and type, created within the calendar day of
`reference_time`, with the given related event when `event_id` is truthy. -/
def _suggestion_exists (store : List Suggestion) (user_id : Nat)
    (suggestion_type : String) (reference_time : Option Int)
    (event_id : Option Nat) (now_utc : Int) : Bool :=
  store.any fun s =>
    decide (s.user_id = user_id) && decide (s.type = suggestion_type) &&
    decide (s.status = "pending") && decide (now_utc < s.expires_at) &&
    matchesEventFilter event_id s && withinReferenceDay reference_time s

/-- `RulesEngineService._cleanup_expired_suggestions`: flip the user's
pending suggestions past their expiry to `expired`. -/
def _cleanup_expired_suggestions (store : List Suggestion) (user_id : Nat)
    (now_utc : Int) : List Suggestion :=
  store.map fun s =>
    if s.user_id = user_id ∧ s.expires_at < now_utc ∧ s.status = "pending" then
      { s with status := "expired" }
    else s

/-- `_create_break_suggestion` (the `hours_worked`/`suggested_time` arguments
feed only the omitted description/`extra_data`). -/
def _create_break_suggestion (user_id : Nat) (hours_worked : ℚ)
    (suggested_time : Option Int) (now_utc : Int) : Suggestion :=
  { id := 0, user_id := user_id, type := "take_break",
    title := "💆 Temps de pause recommandé", priority := "medium",
    status := "pending", rule_triggered := "break_after_work_hours",
    related_event_id := none, created_at := now_utc,
    expires_at := now_utc + SUGGESTION_EXPIRY_HOURS * 3600 }

/-- `_create_balance_suggestion` (category names and percentages feed only
the omitted description/`extra_data`). -/
def _create_balance_suggestion (user_id : Nat) (dominant_category : String)
    (percentage : ℚ) (now_utc : Int) : Suggestion :=
  { id := 0, user_id := user_id, type := "balance_day",
    title := "⚖️ Rééquilibrer votre journée", priority := "low",
    status := "pending", rule_triggered := "balance_day_categories",
    related_event_id := none, created_at := now_utc,
    expires_at := now_utc + SUGGESTION_EXPIRY_HOURS * 3600 }

/-- `_create_move_suggestion`. -/
def _create_move_suggestion (user_id : Nat) (event : Event) (now_utc : Int) : Suggestion :=
  { id := 0, user_id := user_id, type := "move_event",
    title := "📅 Événement à replanifier", priority := "medium",
    status := "pending", rule_triggered := "frequent_postponement",
    related_event_id := some event.id, created_at := now_utc,
    expires_at := now_utc + SUGGESTION_EXPIRY_HOURS * 3600 }

/-- The day/user/status event query shared by the break and balance rules:
`user_id` matches, `start_time` within the calendar day of `date`, status not
`cancelled` (the balance rule reads it unordered, the break rule sorts it). -/
def ruleDayEvents (evs : List Event) (user_id : Nat) (date : Int) : List Event :=
  evs.filter fun e =>
    e.user_id = user_id ∧ dayStart date ≤ e.start_time ∧
      e.start_time < dayStart date + 86400 ∧ e.status ≠ "cancelled"

/-- The loop state of `_check_break_rule`'s block analysis. -/
structure BreakState where
  current_block_start : Option Int
  current_block_hours : ℚ
  last_event_end : Option Int
  acc : List Suggestion
deriving Repr

/-- One iteration of `_check_break_rule`'s loop over the day's events. -/
def breakStep (store : List Suggestion) (user_id : Nat) (now_utc : Int)
    (st : BreakState) (event : Event) : BreakState :=
  let duration : ℚ := ((event.end_time - event.start_time : Int) : ℚ) / 3600
  match st.current_block_start with
  | none =>
    { st with
      current_block_start := some event.start_time
      current_block_hours := duration
      last_event_end := some event.end_time }
  | some _ =>
    if (match st.last_event_end with
        | some le => decide ((((event.start_time - le : Int) : ℚ) / 60) ≤ 30)
        | none => false) then
      { st with
        current_block_hours := st.current_block_hours + duration
        last_event_end := some event.end_time }
    else
      let acc' :=
        if 3 ≤ st.current_block_hours ∧
            ¬ _suggestion_exists store user_id "take_break" st.current_block_start
              none now_utc then
          st.acc ++ [_create_break_suggestion user_id st.current_block_hours
            st.last_event_end now_utc]
        else st.acc
      { current_block_start := some event.start_time
        current_block_hours := duration
        last_event_end := some event.end_time
        acc := acc' }

/-- The final-block check after `_check_break_rule`'s loop. -/
def breakFinish (store : List Suggestion) (user_id : Nat) (now_utc : Int)
    (st : BreakState) : List Suggestion :=
  if 3 ≤ st.current_block_hours ∧
      ¬ _suggestion_exists store user_id "take_break" st.current_block_start
        none now_utc then
    st.acc ++ [_create_break_suggestion user_id st.current_block_hours
      st.last_event_end now_utc]
  else st.acc

/-- `RulesEngineService._check_break_rule` (threshold
`MAX_WORK_HOURS_BEFORE_BREAK = 3.0`, block gap ≤ 30 minutes). -/
def _check_break_rule (evs : List Event) (store : List Suggestion) (user_id : Nat)
    (date : Int) (now_utc : Int) : List Suggestion :=
  let events := sortByStart (ruleDayEvents evs user_id date)
  if events = [] then []
  else
    breakFinish store user_id now_utc
      (events.foldl (breakStep store user_id now_utc) ⟨none, 0, none, []⟩)

/-- `defaultdict` accumulation `category_hours[name] += duration`
(insertion-ordered, as Python dicts are). -/
def bumpCategoryHours : List (String × ℚ) → String → ℚ → List (String × ℚ)
  | [], name, d => [(name, d)]
  | (m, h) :: rest, name, d =>
    if m = name then (m, h + d) :: rest else (m, h) :: bumpCategoryHours rest name d

/-- One step of the per-category accumulation: look the event's category up
and add its duration to that category and to the total (events whose category
id resolves to no `Category` row contribute to neither). -/
def categoryStep (cats : List Category) (acc : List (String × ℚ) × ℚ)
    (event : Event) : List (String × ℚ) × ℚ :=
  let duration : ℚ := ((event.end_time - event.start_time : Int) : ℚ) / 3600
  match cats.find? (fun c => c.id = event.category_id) with
  | some category => (bumpCategoryHours acc.1 category.name duration, acc.2 + duration)
  | none => acc

/-- The per-category hours and categorized total of `_check_balance_rule`. -/
def categoryHours (events : List Event) (cats : List Category) :
    List (String × ℚ) × ℚ :=
  events.foldl (categoryStep cats) ([], 0)

/-- The `for category, percentage in ...` loop of `_check_balance_rule`:
emit for the first category above 60% (and `break`); when the dedup check
finds an active suggestion, keep scanning but never emit. -/
def balanceLoop (store : List Suggestion) (user_id : Nat)
    (start_of_day now_utc : Int) : List (String × ℚ) → List Suggestion
  | [] => []
  | (category, percentage) :: rest =>
    if 3 / 5 < percentage then
      if ¬ _suggestion_exists store user_id "balance_day" (some start_of_day)
          none now_utc then
        [_create_balance_suggestion user_id category percentage now_utc]
      else balanceLoop store user_id start_of_day now_utc rest
    else balanceLoop store user_id start_of_day now_utc rest

/-- `RulesEngineService._check_balance_rule` (the literal threshold `0.6` of
the source; the declared constant `IMBALANCE_THRESHOLD = 0.4` is unused
there). -/
def _check_balance_rule (evs : List Event) (cats : List Category)
    (store : List Suggestion) (user_id : Nat) (date : Int) (now_utc : Int) :
    List Suggestion :=
  let events := ruleDayEvents evs user_id date
  if events = [] then []
  else
    let ch := categoryHours events cats
    if ch.2 = 0 then []
    else
      balanceLoop store user_id (dayStart date) now_utc
        (ch.1.map fun p => (p.1, p.2 / ch.2))

/-- `RulesEngineService._check_postponement_rule`: events updated in the
last 7 days (from the local clock), not cancelled/completed, whose
`updated_at − created_at` exceeds one day and which are flexible. -/
def _check_postponement_rule (evs : List Event) (store : List Suggestion)
    (user_id : Nat) (now_local now_utc : Int) : List Suggestion :=
  let events := evs.filter fun e =>
    e.user_id = user_id ∧ now_local - 7 * 86400 ≤ e.updated_at ∧
      e.status ≠ "cancelled" ∧ e.status ≠ "completed"
  events.foldl
    (fun acc event =>
      if 86400 < event.updated_at - event.created_at then
        if event.is_flexible then
          if ¬ _suggestion_exists store user_id "move_event" (some event.start_time)
              (some event.id) now_utc then
            acc ++ [_create_move_suggestion user_id event now_utc]
          else acc
        else acc
      else acc)
    []

/-- `RulesEngineService.generate_suggestions_for_user`: expire sweep, then
the three rules against the swept store, then persist the new suggestions
(returned list, updated store).  `now_local` is `datetime.now()` (used by the
postponement window), `now_utc` is `datetime.utcnow()` (dedup, expiry, and
the stored creation instant). -/
def generate_suggestions_for_user (evs : List Event) (cats : List Category)
    (store : List Suggestion) (user_id : Nat) (date : Int)
    (now_local now_utc : Int) : List Suggestion × List Suggestion :=
  let store1 := _cleanup_expired_suggestions store user_id now_utc
  let break_suggestions := _check_break_rule evs store1 user_id date now_utc
  let balance_suggestions := _check_balance_rule evs cats store1 user_id date now_utc
  let move_suggestions := _check_postponement_rule evs store1 user_id now_local now_utc
  let suggestions := break_suggestions ++ balance_suggestions ++ move_suggestions
  (suggestions, store1 ++ suggestions)

/-- Priority rank for the descending sort.  Modelled from the spec: the
`Suggestion` ORM column types are missing from the source, and §4.5 orders
active suggestions by priority descending (`high > medium > low`). -/
def priorityRank : String → Nat
  | "high" => 3
  | "medium" => 2
  | "low" => 1
  | _ => 0

/-- `order_by(priority.desc(), created_at.desc())` as a relation. -/
def suggestionOrder (a b : Suggestion) : Prop :=
  priorityRank b.priority < priorityRank a.priority ∨
    (priorityRank a.priority = priorityRank b.priority ∧ b.created_at ≤ a.created_at)

instance : DecidableRel suggestionOrder := fun a b => by
  unfold suggestionOrder; infer_instance

/-- `RulesEngineService.get_active_suggestions`: sweep expired suggestions,
then list the user's pending unexpired ones, ordered by priority descending
then creation time descending (returned list, updated store). -/
def get_active_suggestions (store : List Suggestion) (user_id : Nat)
    (now_utc : Int) : List Suggestion × List Suggestion :=
  let store1 := _cleanup_expired_suggestions store user_id now_utc
  ((store1.filter fun s =>
      s.user_id = user_id ∧ s.status = "pending" ∧ now_utc < s.expires_at)
    |>.insertionSort suggestionOrder, store1)

/-! ### Calendar-day arithmetic -/

theorem dayStart_le (t : Int) : dayStart t ≤ t := by
  unfold dayStart; omega

theorem lt_dayStart_add (t : Int) : t < dayStart t + 86400 := by
  unfold dayStart; omega

theorem dayStart_eq_of_mem {b t : Int} (hb : b % 86400 = 0) (h1 : b ≤ t)
    (h2 : t < b + 86400) : dayStart t = b := by
  unfold dayStart; omega

theorem dayStart_mod (t : Int) : dayStart t % 86400 = 0 := by
  unfold dayStart; omega

theorem sameDay_lt_add {T0 T1 : Int} (h01 : T0 ≤ T1)
    (hday : dayStart T1 = dayStart T0) : T1 < T0 + 86400 := by
  unfold dayStart at hday; omega

/-! ### Persistence of the dedup witnesses across calls -/

/-- Unpack a successful `_suggestion_exists` check. -/
theorem suggestion_exists_elim {store : List Suggestion} {user_id : Nat}
    {suggestion_type : String} {reference_time : Option Int} {event_id : Option Nat}
    {now_utc : Int}
    (h : _suggestion_exists store user_id suggestion_type reference_time event_id
      now_utc = true) :
    ∃ s ∈ store, s.user_id = user_id ∧ s.type = suggestion_type ∧
      s.status = "pending" ∧ now_utc < s.expires_at ∧
      matchesEventFilter event_id s = true ∧
      withinReferenceDay reference_time s = true := by
  unfold _suggestion_exists at h
  rcases List.any_eq_true.mp h with ⟨s, hs, hprops⟩
  simp only [Bool.and_eq_true, decide_eq_true_eq] at hprops
  exact ⟨s, hs, hprops.1.1.1.1.1, hprops.1.1.1.1.2, hprops.1.1.1.2, hprops.1.1.2,
    hprops.1.2, hprops.2⟩

/-- An unexpired pending suggestion with matching fields survives the expire
sweep untouched and witnesses `_suggestion_exists`. -/
theorem suggestion_exists_after_cleanup {base : List Suggestion} {user_id : Nat}
    {suggestion_type : String} {reference_time : Option Int} {event_id : Option Nat}
    {now_utc : Int} {s : Suggestion}
    (hmem : s ∈ base) (hu : s.user_id = user_id) (ht : s.type = suggestion_type)
    (hp : s.status = "pending") (he : now_utc < s.expires_at)
    (hf : matchesEventFilter event_id s = true)
    (hw : withinReferenceDay reference_time s = true) :
    _suggestion_exists (_cleanup_expired_suggestions base user_id now_utc) user_id
      suggestion_type reference_time event_id now_utc = true := by
  unfold _suggestion_exists
  apply List.any_eq_true.mpr
  refine ⟨s, ?_, ?_⟩
  · unfold _cleanup_expired_suggestions
    have : (if s.user_id = user_id ∧ s.expires_at < now_utc ∧ s.status = "pending" then
        { s with status := "expired" } else s) = s := by
      rw [if_neg]
      rintro ⟨-, hlt, -⟩
      exact absurd hlt (not_lt.mpr (le_of_lt he))
    rw [← this]
    exact List.mem_map_of_mem _ hmem
  · simp only [Bool.and_eq_true, decide_eq_true_eq]
    exact ⟨⟨⟨⟨⟨hu, ht⟩, hp⟩, he⟩, hf⟩, hw⟩

/-- A pending suggestion of the swept store was already in the store,
unchanged. -/
theorem cleanup_pending_mem {store : List Suggestion} {user_id : Nat} {now_utc : Int}
    {s : Suggestion} (hs : s ∈ _cleanup_expired_suggestions store user_id now_utc)
    (hp : s.status = "pending") : s ∈ store := by
  unfold _cleanup_expired_suggestions at hs
  rcases List.mem_map.mp hs with ⟨s₀, hs₀, heq⟩
  by_cases hc : s₀.user_id = user_id ∧ s₀.expires_at < now_utc ∧ s₀.status = "pending"
  · rw [if_pos hc] at heq
    rw [← heq] at hp
    simp at hp
  · rw [if_neg hc] at heq
    rw [← heq]; exact hs₀

/-! ### Loop characterizations for the three rules -/

/-- A flush point of `_check_break_rule`'s block loop: the
`(current_block_start, current_block_hours, last_event_end)` state at a block
boundary. -/
structure Flush where
  current_block_start : Option Int
  current_block_hours : ℚ
  last_event_end : Option Int

/-- What the break rule emits at a flush. -/
def breakEmit (store : List Suggestion) (user_id : Nat) (now_utc : Int)
    (f : Flush) : Option Suggestion :=
  if 3 ≤ f.current_block_hours ∧
      ¬ _suggestion_exists store user_id "take_break" f.current_block_start
        none now_utc then
    some (_create_break_suggestion user_id f.current_block_hours f.last_event_end
      now_utc)
  else none

/-- The flush points of the block loop, including the final state. -/
def breakFlushes : Flush → List Event → List Flush
  | f, [] => [f]
  | ⟨cbs, cbh, le⟩, event :: rest =>
    let duration : ℚ := ((event.end_time - event.start_time : Int) : ℚ) / 3600
    match cbs with
    | none => breakFlushes ⟨some event.start_time, duration, some event.end_time⟩ rest
    | some _ =>
      if (match le with
          | some l => decide ((((event.start_time - l : Int) : ℚ) / 60) ≤ 30)
          | none => false) then
        breakFlushes ⟨cbs, cbh + duration, some event.end_time⟩ rest
      else
        ⟨cbs, cbh, le⟩ ::
          breakFlushes ⟨some event.start_time, duration, some event.end_time⟩ rest

theorem breakFold_eq (store : List Suggestion) (user_id : Nat) (now_utc : Int) :
    ∀ (events : List Event) (cbs : Option Int) (cbh : ℚ) (le : Option Int)
      (acc : List Suggestion),
      breakFinish store user_id now_utc
          (events.foldl (breakStep store user_id now_utc) ⟨cbs, cbh, le, acc⟩) =
        acc ++ (breakFlushes ⟨cbs, cbh, le⟩ events).filterMap
          (breakEmit store user_id now_utc)
  | [], cbs, cbh, le, acc => by
    by_cases hc : 3 ≤ cbh ∧
        ¬ _suggestion_exists store user_id "take_break" cbs none now_utc
    · simp only [List.foldl_nil, breakFinish, breakFlushes, breakEmit,
        List.filterMap_cons, List.filterMap_nil]
      rw [if_pos hc, if_pos hc]
    · simp only [List.foldl_nil, breakFinish, breakFlushes, breakEmit,
        List.filterMap_cons, List.filterMap_nil]
      rw [if_neg hc, if_neg hc]
      simp
  | event :: rest, none, cbh, le, acc =>
    breakFold_eq store user_id now_utc rest (some event.start_time)
      (((event.end_time - event.start_time : Int) : ℚ) / 3600)
      (some event.end_time) acc
  | event :: rest, some t, cbh, le, acc => by
    by_cases hg : (match le with
        | some l => decide ((((event.start_time - l : Int) : ℚ) / 60) ≤ 30)
        | none => false) = true
    · have hstep : breakStep store user_id now_utc ⟨some t, cbh, le, acc⟩ event =
          ⟨some t, cbh + ((event.end_time - event.start_time : Int) : ℚ) / 3600,
            some event.end_time, acc⟩ := by
        simp only [breakStep]
        rw [if_pos hg]
      have hfl : breakFlushes ⟨some t, cbh, le⟩ (event :: rest) =
          breakFlushes
            ⟨some t, cbh + ((event.end_time - event.start_time : Int) : ℚ) / 3600,
              some event.end_time⟩ rest := by
        simp only [breakFlushes]
        rw [if_pos hg]
      show breakFinish store user_id now_utc
          (rest.foldl (breakStep store user_id now_utc)
            (breakStep store user_id now_utc ⟨some t, cbh, le, acc⟩ event)) = _
      rw [hstep, hfl]
      exact breakFold_eq store user_id now_utc rest _ _ _ _
    · have hstep : breakStep store user_id now_utc ⟨some t, cbh, le, acc⟩ event =
          ⟨some event.start_time,
            ((event.end_time - event.start_time : Int) : ℚ) / 3600,
            some event.end_time,
            if 3 ≤ cbh ∧ ¬ _suggestion_exists store user_id "take_break" (some t)
                none now_utc then
              acc ++ [_create_break_suggestion user_id cbh le now_utc]
            else acc⟩ := by
        simp only [breakStep]
        rw [if_neg hg]
      have hfl : breakFlushes ⟨some t, cbh, le⟩ (event :: rest) =
          ⟨some t, cbh, le⟩ ::
            breakFlushes
              ⟨some event.start_time,
                ((event.end_time - event.start_time : Int) : ℚ) / 3600,
                some event.end_time⟩ rest := by
        simp only [breakFlushes]
        rw [if_neg hg]
      have hemit : breakEmit store user_id now_utc ⟨some t, cbh, le⟩ =
          if 3 ≤ cbh ∧ ¬ _suggestion_exists store user_id "take_break" (some t)
              none now_utc then
            some (_create_break_suggestion user_id cbh le now_utc)
          else none := by
        simp only [breakEmit]
      show breakFinish store user_id now_utc
          (rest.foldl (breakStep store user_id now_utc)
            (breakStep store user_id now_utc ⟨some t, cbh, le, acc⟩ event)) = _
      rw [hstep, hfl, List.filterMap_cons, hemit]
      by_cases hc : 3 ≤ cbh ∧
          ¬ _suggestion_exists store user_id "take_break" (some t) none now_utc
      · simp only [if_pos hc]
        rw [breakFold_eq store user_id now_utc rest (some event.start_time)
          (((event.end_time - event.start_time : Int) : ℚ) / 3600)
          (some event.end_time)
          (acc ++ [_create_break_suggestion user_id cbh le now_utc])]
        simp
      · simp only [if_neg hc]
        rw [breakFold_eq store user_id now_utc rest (some event.start_time)
          (((event.end_time - event.start_time : Int) : ℚ) / 3600)
          (some event.end_time) acc]

/-- `_check_break_rule` as a filterMap over the flush points. -/
theorem break_rule_eq (evs : List Event) (store : List Suggestion) (user_id : Nat)
    (date : Int) (now_utc : Int) :
    _check_break_rule evs store user_id date now_utc =
      if sortByStart (ruleDayEvents evs user_id date) = [] then []
      else
        (breakFlushes ⟨none, 0, none⟩
            (sortByStart (ruleDayEvents evs user_id date))).filterMap
          (breakEmit store user_id now_utc) := by
  simp only [_check_break_rule]
  split
  · rfl
  · have := breakFold_eq store user_id now_utc
      (sortByStart (ruleDayEvents evs user_id date)) none 0 none []
    simpa using this

/-- Every flush's block start is the initial one or some processed event's
start time. -/
theorem breakFlushes_starts :
    ∀ (events : List Event) (cbs : Option Int) (cbh : ℚ) (le : Option Int),
      ∀ f ∈ breakFlushes ⟨cbs, cbh, le⟩ events,
        f.current_block_start = cbs ∨
          ∃ e ∈ events, f.current_block_start = some e.start_time
  | [], cbs, cbh, le, f, hf => by
    unfold breakFlushes at hf
    rcases List.mem_singleton.mp hf with rfl
    exact Or.inl rfl
  | event :: rest, none, cbh, le, f, hf => by
    have hf' : f ∈ breakFlushes
        ⟨some event.start_time,
          ((event.end_time - event.start_time : Int) : ℚ) / 3600,
          some event.end_time⟩ rest := hf
    rcases breakFlushes_starts rest _ _ _ f hf' with h | ⟨e, he, hh⟩
    · exact Or.inr ⟨event, List.mem_cons_self _ _, h⟩
    · exact Or.inr ⟨e, List.mem_cons_of_mem _ he, hh⟩
  | event :: rest, some t, cbh, none, f, hf => by
    have hfl : breakFlushes ⟨some t, cbh, none⟩ (event :: rest) =
        ⟨some t, cbh, none⟩ ::
          breakFlushes
            ⟨some event.start_time,
              ((event.end_time - event.start_time : Int) : ℚ) / 3600,
              some event.end_time⟩ rest := by
      simp only [breakFlushes]
      rw [if_neg Bool.false_ne_true]
    rw [hfl] at hf
    rcases List.mem_cons.mp hf with rfl | hf'
    · exact Or.inl rfl
    · rcases breakFlushes_starts rest _ _ _ f hf' with h | ⟨e, he, hh⟩
      · exact Or.inr ⟨event, List.mem_cons_self _ _, h⟩
      · exact Or.inr ⟨e, List.mem_cons_of_mem _ he, hh⟩
  | event :: rest, some t, cbh, some l, f, hf => by
    by_cases hg : (((event.start_time - l : Int) : ℚ) / 60) ≤ 30
    · have hfl : breakFlushes ⟨some t, cbh, some l⟩ (event :: rest) =
          breakFlushes
            ⟨some t, cbh + ((event.end_time - event.start_time : Int) : ℚ) / 3600,
              some event.end_time⟩ rest := by
        simp only [breakFlushes]
        rw [if_pos (decide_eq_true hg)]
      rw [hfl] at hf
      rcases breakFlushes_starts rest _ _ _ f hf with h | ⟨e, he, hh⟩
      · exact Or.inl h
      · exact Or.inr ⟨e, List.mem_cons_of_mem _ he, hh⟩
    · have hfl : breakFlushes ⟨some t, cbh, some l⟩ (event :: rest) =
          ⟨some t, cbh, some l⟩ ::
            breakFlushes
              ⟨some event.start_time,
                ((event.end_time - event.start_time : Int) : ℚ) / 3600,
                some event.end_time⟩ rest := by
        simp only [breakFlushes]
        rw [if_neg (by simpa using hg)]
      rw [hfl] at hf
      rcases List.mem_cons.mp hf with rfl | hf'
      · exact Or.inl rfl
      · rcases breakFlushes_starts rest _ _ _ f hf' with h | ⟨e, he, hh⟩
        · exact Or.inr ⟨event, List.mem_cons_self _ _, h⟩
        · exact Or.inr ⟨e, List.mem_cons_of_mem _ he, hh⟩

/-- Folding `acc ++ [f e]` under a guard equals mapping over the filtered
list. -/
theorem foldl_append_if {α β : Type _} (step : List β → α → List β)
    (p : α → Bool) (f : α → β)
    (hstep : ∀ acc e, step acc e = if p e then acc ++ [f e] else acc) :
    ∀ (l : List α) (acc : List β),
      l.foldl step acc = acc ++ ((l.filter p).map f)
  | [], acc => by simp
  | e :: l, acc => by
    rw [List.foldl_cons, hstep, List.filter_cons]
    by_cases hp : p e
    · rw [if_pos hp, if_pos hp, foldl_append_if step p f hstep l, List.map_cons]
      simp
    · rw [if_neg hp, if_neg hp, foldl_append_if step p f hstep l]

/-- The postponement trigger for one queried event. -/
def moveTrigger (store : List Suggestion) (user_id : Nat) (now_utc : Int)
    (event : Event) : Bool :=
  decide (86400 < event.updated_at - event.created_at) && event.is_flexible &&
    ! _suggestion_exists store user_id "move_event" (some event.start_time)
      (some event.id) now_utc

/-- The postponement query. -/
def moveQuery (evs : List Event) (user_id : Nat) (now_local : Int) : List Event :=
  evs.filter fun e =>
    e.user_id = user_id ∧ now_local - 7 * 86400 ≤ e.updated_at ∧
      e.status ≠ "cancelled" ∧ e.status ≠ "completed"

/-- `_check_postponement_rule` as a map over the triggering events. -/
theorem postponement_rule_eq (evs : List Event) (store : List Suggestion)
    (user_id : Nat) (now_local now_utc : Int) :
    _check_postponement_rule evs store user_id now_local now_utc =
      ((moveQuery evs user_id now_local).filter
          (moveTrigger store user_id now_utc)).map
        (fun e => _create_move_suggestion user_id e now_utc) := by
  unfold _check_postponement_rule moveQuery
  rw [foldl_append_if _ (moveTrigger store user_id now_utc)
    (fun e => _create_move_suggestion user_id e now_utc) ?_ _ []]
  · simp
  · intro acc e
    unfold moveTrigger
    by_cases h1 : 86400 < e.updated_at - e.created_at
    · by_cases h2 : e.is_flexible
      · by_cases h3 : _suggestion_exists store user_id "move_event"
            (some e.start_time) (some e.id) now_utc
        · simp [h1, h2, h3]
        · simp [h1, h2, h3]
      · simp [h1, h2]
    · simp [h1]

/-- The balance loop, characterized: nothing is emitted when an active
balance suggestion exists; otherwise the first category above 60% (if any)
yields the single suggestion. -/
theorem balanceLoop_eq (store : List Suggestion) (user_id : Nat)
    (start_of_day now_utc : Int) :
    ∀ l : List (String × ℚ),
      balanceLoop store user_id start_of_day now_utc l =
        if _suggestion_exists store user_id "balance_day" (some start_of_day)
            none now_utc then []
        else
          match l.find? (fun p => decide ((3 : ℚ) / 5 < p.2)) with
          | some p => [_create_balance_suggestion user_id p.1 p.2 now_utc]
          | none => []
  | [] => by
    split <;> rfl
  | (category, percentage) :: rest => by
    show (if (3 : ℚ) / 5 < percentage then
        if ¬ _suggestion_exists store user_id "balance_day" (some start_of_day)
            none now_utc then
          [_create_balance_suggestion user_id category percentage now_utc]
        else balanceLoop store user_id start_of_day now_utc rest
      else balanceLoop store user_id start_of_day now_utc rest) = _
    by_cases hp : (3 : ℚ) / 5 < percentage
    · rw [if_pos hp,
        @List.find?_cons_of_pos _ (fun q => decide ((3 : ℚ) / 5 < q.2))
          (category, percentage) rest (decide_eq_true hp)]
      by_cases hex : _suggestion_exists store user_id "balance_day"
          (some start_of_day) none now_utc
      · rw [if_neg (not_not_intro hex),
          balanceLoop_eq store user_id start_of_day now_utc rest, if_pos hex,
          if_pos hex]
      · rw [if_pos hex, if_neg hex]
    · rw [if_neg hp,
        @List.find?_cons_of_neg _ (fun q => decide ((3 : ℚ) / 5 < q.2))
          (category, percentage) rest (by simpa using hp),
        balanceLoop_eq store user_id start_of_day now_utc rest]

/-! ### Claim C6: the active-suggestion listing -/

instance : IsTotal Suggestion suggestionOrder :=
  ⟨by intro a b; unfold suggestionOrder; omega⟩

instance : IsTrans Suggestion suggestionOrder :=
  ⟨by intro a b c hab hbc; unfold suggestionOrder at *; omega⟩

/-- C6: after `get_active_suggestions`, every suggestion of the user whose
expiry is in the past no longer has status `pending`; the returned list
contains only the user's pending, unexpired suggestions; and it is ordered
by priority descending (high > medium > low) then creation time
descending. -/
theorem claim_C6_active_listing (store : List Suggestion) (user_id : Nat)
    (now_utc : Int) :
    (∀ s ∈ (get_active_suggestions store user_id now_utc).2,
      s.user_id = user_id → s.expires_at < now_utc → s.status ≠ "pending") ∧
    (∀ s ∈ (get_active_suggestions store user_id now_utc).1,
      s.user_id = user_id ∧ s.status = "pending" ∧ now_utc < s.expires_at) ∧
    (get_active_suggestions store user_id now_utc).1.Pairwise suggestionOrder := by
  refine ⟨?_, ?_, ?_⟩
  · intro s hs hu he
    have hs' : s ∈ _cleanup_expired_suggestions store user_id now_utc := hs
    unfold _cleanup_expired_suggestions at hs'
    rcases List.mem_map.mp hs' with ⟨s₀, hs₀, heq⟩
    by_cases hc : s₀.user_id = user_id ∧ s₀.expires_at < now_utc ∧ s₀.status = "pending"
    · rw [if_pos hc] at heq
      rw [← heq]
      simp
    · rw [if_neg hc] at heq
      subst heq
      intro hp
      exact hc ⟨hu, he, hp⟩
  · intro s hs
    have hs' : s ∈ ((_cleanup_expired_suggestions store user_id now_utc).filter
        fun s => s.user_id = user_id ∧ s.status = "pending" ∧
          now_utc < s.expires_at) := (List.mem_insertionSort _).mp hs
    have := (List.mem_filter.mp hs').2
    simpa using this
  · exact List.sorted_insertionSort suggestionOrder _

/-- A concrete store for the C6 witness: one expired pending suggestion and
one active one. -/
def c6Store : List Suggestion :=
  [⟨1, 1, "take_break", "pause", "medium", "pending", "break_after_work_hours",
      none, 0, 50⟩,
   ⟨2, 1, "balance_day", "balance", "low", "pending", "balance_day_categories",
      none, 10, 200⟩]

/-- Witness for `claim_C6_active_listing` at `c6Store`, user 1, time 100:
the first suggestion (expired at 50) is swept out of `pending`, and the
second is listed as pending and unexpired. -/
theorem claim_C6_active_listing_witness :
    ((⟨1, 1, "take_break", "pause", "medium", "expired", "break_after_work_hours",
        none, 0, 50⟩ : Suggestion).status ≠ "pending") ∧
    ((⟨2, 1, "balance_day", "balance", "low", "pending", "balance_day_categories",
        none, 10, 200⟩ : Suggestion).user_id = 1 ∧
      (⟨2, 1, "balance_day", "balance", "low", "pending", "balance_day_categories",
        none, 10, 200⟩ : Suggestion).status = "pending" ∧
      (100 : Int) < (⟨2, 1, "balance_day", "balance", "low", "pending",
        "balance_day_categories", none, 10, 200⟩ : Suggestion).expires_at) :=
  ⟨(claim_C6_active_listing c6Store 1 100).1 _ (by decide) rfl (by decide),
   (claim_C6_active_listing c6Store 1 100).2.1 _ (by decide)⟩

/-! ### Claim C7: the balance rule -/

/-- The summed duration, in hours, of a list of events (the claim's "day's
non-cancelled event duration" over `ruleDayEvents`). -/
def totalHours (events : List Event) : ℚ :=
  events.foldr (fun e acc => ((e.end_time - e.start_time : Int) : ℚ) / 3600 + acc) 0

/-- When every event's category resolves, the categorized total is the full
total. -/
theorem categoryHours_snd (cats : List Category) :
    ∀ (events : List Event) (acc : List (String × ℚ) × ℚ),
      (∀ e ∈ events, (cats.find? (fun c => c.id = e.category_id)).isSome = true) →
      (events.foldl (categoryStep cats) acc).2 = acc.2 + totalHours events
  | [], acc, _ => by simp [totalHours]
  | e :: rest, acc, h => by
    rw [List.foldl_cons]
    have he := h e (List.mem_cons_self _ _)
    rcases hf : cats.find? (fun c => c.id = e.category_id) with _ | category
    · rw [hf] at he; cases he
    · have hstep : categoryStep cats acc e =
          (bumpCategoryHours acc.1 category.name
            (((e.end_time - e.start_time : Int) : ℚ) / 3600),
           acc.2 + ((e.end_time - e.start_time : Int) : ℚ) / 3600) := by
        simp only [categoryStep]
        rw [hf]
      rw [hstep, categoryHours_snd cats rest _
        (fun e' he' => h e' (List.mem_cons_of_mem _ he'))]
      show acc.2 + _ + totalHours rest = acc.2 + totalHours (e :: rest)
      unfold totalHours
      rw [List.foldr_cons]
      ring

/-- C7: the balance rule emits at most one suggestion per invocation, every
emitted suggestion is a low-priority `balance_day`, and — when every
day-event's category resolves (the schema's non-nullable foreign key) — it
emits exactly when some category's share of the day's non-cancelled event
duration exceeds 60% and no active balance suggestion exists for that day. -/
theorem claim_C7_balance_rule (evs : List Event) (cats : List Category)
    (store : List Suggestion) (user_id : Nat) (date : Int) (now_utc : Int)
    (hcat : ∀ e ∈ ruleDayEvents evs user_id date,
      (cats.find? (fun c => c.id = e.category_id)).isSome = true) :
    (_check_balance_rule evs cats store user_id date now_utc).length ≤ 1 ∧
    (∀ s ∈ _check_balance_rule evs cats store user_id date now_utc,
      s.type = "balance_day" ∧ s.priority = "low") ∧
    (_check_balance_rule evs cats store user_id date now_utc ≠ [] ↔
      ((∃ p ∈ (categoryHours (ruleDayEvents evs user_id date) cats).1,
          3 / 5 < p.2 / totalHours (ruleDayEvents evs user_id date)) ∧
        ¬ _suggestion_exists store user_id "balance_day" (some (dayStart date))
          none now_utc = true)) := by
  have htot : (categoryHours (ruleDayEvents evs user_id date) cats).2 =
      totalHours (ruleDayEvents evs user_id date) := by
    have := categoryHours_snd cats (ruleDayEvents evs user_id date) ([], 0) hcat
    simpa [categoryHours] using this
  simp only [_check_balance_rule]
  split
  · rename_i hnil
    refine ⟨by simp, by simp, ?_⟩
    rw [hnil]
    constructor
    · intro h; exact absurd rfl h
    · rintro ⟨⟨p, hp, -⟩, -⟩
      rw [show categoryHours ([] : List Event) cats = ([], 0) from rfl] at hp
      cases hp
  · rename_i hne
    split
    · rename_i hzero
      refine ⟨by simp, by simp, ?_⟩
      constructor
      · intro h; exact absurd rfl h
      · rintro ⟨⟨p, hp, hshare⟩, -⟩
        rw [← htot, hzero] at hshare
        rw [div_zero] at hshare
        norm_num at hshare
    · rename_i hzero
      rw [balanceLoop_eq]
      by_cases hex : _suggestion_exists store user_id "balance_day"
          (some (dayStart date)) none now_utc = true
      · rw [if_pos hex]
        refine ⟨by simp, by simp, ?_⟩
        constructor
        · intro h; exact absurd rfl h
        · rintro ⟨-, hnex⟩
          exact absurd hex hnex
      · rw [if_neg hex]
        rcases hfind : ((categoryHours (ruleDayEvents evs user_id date) cats).1.map
            fun p => (p.1, p.2 / (categoryHours (ruleDayEvents evs user_id date)
              cats).2)).find? (fun p => decide ((3 : ℚ) / 5 < p.2)) with _ | q
        · refine ⟨by rw [hfind]; simp, by rw [hfind]; simp, ?_⟩
          constructor
          · intro h
            rw [hfind] at h
            exact absurd rfl h
          · rintro ⟨⟨p, hp, hshare⟩, -⟩
            have : (((categoryHours (ruleDayEvents evs user_id date) cats).1.map
                fun p => (p.1, p.2 / (categoryHours (ruleDayEvents evs user_id date)
                  cats).2)).find? (fun p => decide ((3 : ℚ) / 5 < p.2))).isSome = true := by
              apply List.find?_isSome.mpr
              refine ⟨(p.1, p.2 / (categoryHours (ruleDayEvents evs user_id date)
                cats).2), List.mem_map_of_mem _ hp, ?_⟩
              rw [htot]
              exact decide_eq_true hshare
            rw [hfind] at this
            cases this
        · refine ⟨by rw [hfind]; simp, ?_, ?_⟩
          · intro s hs
            rw [hfind] at hs
            rcases List.mem_singleton.mp hs with rfl
            exact ⟨rfl, rfl⟩
          · constructor
            · intro hne2
              have hqmem := List.mem_of_find?_eq_some hfind
              have hqpred := List.find?_some hfind
              rcases List.mem_map.mp hqmem with ⟨p, hp, hpq⟩
              refine ⟨⟨p, hp, ?_⟩, hex⟩
              rw [← htot]
              have := of_decide_eq_true hqpred
              rw [← hpq] at this
              exact this
            · intro hshare2
              rw [hfind]
              simp

/-- The two events of the C7 witness day: 8 tracked hours of `travail`
against 1 of `sport` (an 8/9 ≈ 89% share). -/
def c7Events : List Event :=
  [{ id := 1, title := "deep work", start_time := 8 * 3600, end_time := 16 * 3600,
     location := none, status := "pending", is_flexible := true, created_at := 0,
     updated_at := 0, category_id := 1, user_id := 1 },
   { id := 2, title := "course", start_time := 16 * 3600, end_time := 17 * 3600,
     location := none, status := "pending", is_flexible := true, created_at := 0,
     updated_at := 0, category_id := 2, user_id := 1 }]

/-- The categories of the C7 witness. -/
def c7Cats : List Category := [⟨1, "travail"⟩, ⟨2, "sport"⟩]

/-- Witness for `claim_C7_balance_rule` at the concrete 8h/1h day. -/
theorem claim_C7_balance_rule_witness :
    (∀ e ∈ ruleDayEvents c7Events 1 0,
      (c7Cats.find? (fun c => c.id = e.category_id)).isSome = true) ∧
    ((_check_balance_rule c7Events c7Cats [] 1 0 0).length ≤ 1 ∧
      (∀ s ∈ _check_balance_rule c7Events c7Cats [] 1 0 0,
        s.type = "balance_day" ∧ s.priority = "low") ∧
      (_check_balance_rule c7Events c7Cats [] 1 0 0 ≠ [] ↔
        ((∃ p ∈ (categoryHours (ruleDayEvents c7Events 1 0) c7Cats).1,
            3 / 5 < p.2 / totalHours (ruleDayEvents c7Events 1 0)) ∧
          ¬ _suggestion_exists [] 1 "balance_day" (some (dayStart 0))
            none 0 = true))) :=
  ⟨by decide, claim_C7_balance_rule c7Events c7Cats [] 1 0 0 (by decide)⟩

/-! ### Claim C4: generating twice in succession -/

theorem dayStart_idem (t : Int) : dayStart (dayStart t) = dayStart t := by
  unfold dayStart; omega

theorem matchesEventFilter_self {eid : Nat} {s : Suggestion}
    (h : s.related_event_id = some eid) : matchesEventFilter (some eid) s = true := by
  show (if eid ≠ 0 then decide (s.related_event_id = some eid) else true) = true
  split_ifs <;> simp [h]

theorem withinReferenceDay_of_day {r : Int} {s : Suggestion} {T0 : Int}
    (hc : s.created_at = T0) (hd : dayStart r = dayStart T0) :
    withinReferenceDay (some r) s = true := by
  unfold withinReferenceDay
  apply decide_eq_true
  rw [hc, hd]
  exact ⟨dayStart_le T0, lt_dayStart_add T0⟩

/-- The break rule emits nothing when every qualifying flush point's dedup
check finds an active suggestion. -/
theorem break_rule_empty_of_covered (evs : List Event) (store2 : List Suggestion)
    (user_id : Nat) (date T1 : Int)
    (hcov : ∀ f ∈ breakFlushes ⟨none, 0, none⟩
        (sortByStart (ruleDayEvents evs user_id date)),
      3 ≤ f.current_block_hours →
      _suggestion_exists store2 user_id "take_break" f.current_block_start
        none T1 = true) :
    _check_break_rule evs store2 user_id date T1 = [] := by
  rw [break_rule_eq]
  split
  · rfl
  · apply List.filterMap_eq_nil_iff.mpr
    intro f hf
    unfold breakEmit
    rw [if_neg]
    rintro ⟨hh, hnex⟩
    exact hnex (hcov f hf hh)

/-- The balance rule emits nothing when, whenever some category's share
crosses 60%, the dedup check finds an active suggestion. -/
theorem balance_rule_empty_of_covered (evs : List Event) (cats : List Category)
    (store2 : List Suggestion) (user_id : Nat) (date T1 : Int)
    (hcov : ((categoryHours (ruleDayEvents evs user_id date) cats).1.map
          (fun p => (p.1,
            p.2 / (categoryHours (ruleDayEvents evs user_id date) cats).2))).find?
          (fun p => decide ((3 : ℚ) / 5 < p.2)) ≠ none →
      _suggestion_exists store2 user_id "balance_day" (some (dayStart date))
        none T1 = true) :
    _check_balance_rule evs cats store2 user_id date T1 = [] := by
  simp only [_check_balance_rule]
  split
  · rfl
  split
  · rfl
  rw [balanceLoop_eq store2 user_id (dayStart date) T1]
  by_cases hex : _suggestion_exists store2 user_id "balance_day"
      (some (dayStart date)) none T1 = true
  · rw [if_pos hex]
  · rw [if_neg hex]
    rcases hfind : ((categoryHours (ruleDayEvents evs user_id date) cats).1.map
        (fun p => (p.1,
          p.2 / (categoryHours (ruleDayEvents evs user_id date) cats).2))).find?
        (fun p => decide ((3 : ℚ) / 5 < p.2)) with _ | q
    · rw [hfind]
    · exact absurd (hcov (by rw [hfind]; simp)) hex

/-- The postponement rule emits nothing when every triggering event's dedup
check finds an active suggestion. -/
theorem move_rule_empty_of_covered (evs : List Event) (store2 : List Suggestion)
    (user_id : Nat) (T1 : Int)
    (hcov : ∀ e ∈ moveQuery evs user_id T1,
      86400 < e.updated_at - e.created_at → e.is_flexible = true →
      _suggestion_exists store2 user_id "move_event" (some e.start_time)
        (some e.id) T1 = true) :
    _check_postponement_rule evs store2 user_id T1 T1 = [] := by
  rw [postponement_rule_eq, List.map_eq_nil_iff]
  apply List.filter_eq_nil_iff.mpr
  intro e he htrig
  unfold moveTrigger at htrig
  simp only [Bool.and_eq_true, Bool.not_eq_true', decide_eq_true_eq] at htrig
  have := hcov e he htrig.1.1 htrig.1.2
  rw [htrig.2] at this
  exact absurd this Bool.false_ne_true

/-- A flexible, repeatedly-postponed event starting two days after the
reference day: the move rule's dedup window is the calendar day of the
event's start, which never contains the creation instant of the first call's
suggestion. -/
def c4Event : Event :=
  { id := 5, title := "reporté", start_time := 1002 * 86400 + 36000,
    end_time := 1002 * 86400 + 39600, location := none, status := "pending",
    is_flexible := true, created_at := 86443200 - 190000,
    updated_at := 86443200 - 100, category_id := 1, user_id := 1 }

/-- C4, counterexample to the claim as stated: two immediately successive
`generate_suggestions_for_user` calls (same clock instant 86443200, same
event store, same reference date) where the second call still emits a
suggestion — the first call's `move_event` suggestion was created today, but
the dedup check looks for one created within the calendar day of the moved
event's start (two days ahead), finds none, and emits again. -/
theorem claim_C4_counterexample :
    (generate_suggestions_for_user [c4Event] []
        (generate_suggestions_for_user [c4Event] [] [] 1 86443200 86443200
          86443200).2
        1 86443200 86443200 86443200).1 ≠ [] := by decide

/-- A flexible, repeatedly-postponed event starting on the reference day
itself, for the C4 witness. -/
def c4wEvent : Event :=
  { id := 5, title := "reporté", start_time := 86436000,
    end_time := 86439600, location := none, status := "pending",
    is_flexible := true, created_at := 86349950,
    updated_at := 86439950, category_id := 1, user_id := 1 }

/-- C4 (amended): a second `generate_suggestions_for_user` call emits no
suggestions, provided the two calls happen within the same calendar day, the
reference date lies on that same day, no stored pending suggestion expires
between the calls, and every postponement-triggering event starts on that
day.  (The dedup window compares the stored creation instant against the
calendar day of the rule's reference time — the reference date for
break/balance, the event's own start day for move_event — so without these
provisos the second call can emit again; see the counterexample.) -/
theorem claim_C4_amended (evs : List Event) (cats : List Category)
    (store : List Suggestion) (user_id : Nat) (date T0 T1 : Int)
    (h01 : T0 ≤ T1)
    (hday : dayStart T1 = dayStart T0)
    (hdate : dayStart date = dayStart T0)
    (hexp : ∀ s ∈ store, s.status = "pending" → T0 < s.expires_at →
      T1 < s.expires_at)
    (hmove : ∀ e ∈ evs, e.user_id = user_id → T1 - 7 * 86400 ≤ e.updated_at →
      e.status ≠ "cancelled" → e.status ≠ "completed" →
      86400 < e.updated_at - e.created_at → e.is_flexible = true →
      dayStart e.start_time = dayStart T0) :
    (generate_suggestions_for_user evs cats
        (generate_suggestions_for_user evs cats store user_id date T0 T0).2
        user_id date T1 T1).1 = [] := by
  have hT1win : T1 < T0 + 86400 := sameDay_lt_add h01 hday
  have hexpiry : T1 < T0 + SUGGESTION_EXPIRY_HOURS * 3600 := by
    simp only [SUGGESTION_EXPIRY_HOURS]; omega
  have hpersist : ∀ (ty : String) (rt : Option Int) (eid : Option Nat),
      _suggestion_exists (_cleanup_expired_suggestions store user_id T0) user_id
        ty rt eid T0 = true →
      _suggestion_exists (_cleanup_expired_suggestions
          (generate_suggestions_for_user evs cats store user_id date T0 T0).2
          user_id T1)
        user_id ty rt eid T1 = true := by
    intro ty rt eid hex
    rcases suggestion_exists_elim hex with ⟨s, hs, hu, ht, hp, hltx, hfx, hwx⟩
    apply suggestion_exists_after_cleanup ?_ hu ht hp
      (hexp s (cleanup_pending_mem hs hp) hp hltx) hfx hwx
    exact List.mem_append_left _ hs
  have hnewmem : ∀ n : Suggestion,
      (n ∈ _check_break_rule evs (_cleanup_expired_suggestions store user_id T0)
          user_id date T0 ∨
        n ∈ _check_balance_rule evs cats
          (_cleanup_expired_suggestions store user_id T0) user_id date T0 ∨
        n ∈ _check_postponement_rule evs
          (_cleanup_expired_suggestions store user_id T0) user_id T0 T0) →
      n ∈ (generate_suggestions_for_user evs cats store user_id date T0 T0).2 := by
    intro n hn
    show n ∈ _cleanup_expired_suggestions store user_id T0 ++
      (_check_break_rule evs (_cleanup_expired_suggestions store user_id T0)
          user_id date T0 ++
        _check_balance_rule evs cats
          (_cleanup_expired_suggestions store user_id T0) user_id date T0 ++
        _check_postponement_rule evs
          (_cleanup_expired_suggestions store user_id T0) user_id T0 T0)
    rcases hn with h | h | h
    · exact List.mem_append_right _ (List.mem_append_left _
        (List.mem_append_left _ h))
    · exact List.mem_append_right _ (List.mem_append_left _
        (List.mem_append_right _ h))
    · exact List.mem_append_right _ (List.mem_append_right _ h)
  have hcovB : ∀ f ∈ breakFlushes ⟨none, 0, none⟩
      (sortByStart (ruleDayEvents evs user_id date)),
      3 ≤ f.current_block_hours →
      _suggestion_exists (_cleanup_expired_suggestions
          (generate_suggestions_for_user evs cats store user_id date T0 T0).2
          user_id T1)
        user_id "take_break" f.current_block_start none T1 = true := by
    intro f hf hh
    by_cases hex1 : _suggestion_exists (_cleanup_expired_suggestions store user_id T0)
        user_id "take_break" f.current_block_start none T0 = true
    · exact hpersist _ _ _ hex1
    · have hne : sortByStart (ruleDayEvents evs user_id date) ≠ [] := by
        intro h0
        rw [h0] at hf
        have hfi : f = ⟨none, 0, none⟩ := List.mem_singleton.mp hf
        rw [hfi] at hh
        norm_num at hh
      have hmem1 : _create_break_suggestion user_id f.current_block_hours
          f.last_event_end T0 ∈ _check_break_rule evs
            (_cleanup_expired_suggestions store user_id T0) user_id date T0 := by
        rw [break_rule_eq, if_neg hne]
        apply List.mem_filterMap.mpr
        exact ⟨f, hf, by unfold breakEmit; rw [if_pos ⟨hh, hex1⟩]⟩
      have hwin : withinReferenceDay f.current_block_start
          (_create_break_suggestion user_id f.current_block_hours
            f.last_event_end T0) = true := by
        rcases breakFlushes_starts _ none 0 none f hf with hnone | ⟨e, he, hsome⟩
        · rw [hnone]; rfl
        · rw [hsome]
          refine @withinReferenceDay_of_day e.start_time _ T0 rfl ?_
          have hemem : e ∈ ruleDayEvents evs user_id date :=
            (List.mem_insertionSort _).mp he
          have hprops := (List.mem_filter.mp hemem).2
          simp only [decide_eq_true_eq] at hprops
          rw [dayStart_eq_of_mem (dayStart_mod date) hprops.2.1 hprops.2.2.1, hdate]
      exact suggestion_exists_after_cleanup (hnewmem _ (Or.inl hmem1))
        rfl rfl rfl hexpiry rfl hwin
  have hcovBal : ((categoryHours (ruleDayEvents evs user_id date) cats).1.map
        (fun p => (p.1,
          p.2 / (categoryHours (ruleDayEvents evs user_id date) cats).2))).find?
        (fun p => decide ((3 : ℚ) / 5 < p.2)) ≠ none →
      _suggestion_exists (_cleanup_expired_suggestions
          (generate_suggestions_for_user evs cats store user_id date T0 T0).2
          user_id T1)
        user_id "balance_day" (some (dayStart date)) none T1 = true := by
    intro hfind
    by_cases hex1 : _suggestion_exists (_cleanup_expired_suggestions store user_id T0)
        user_id "balance_day" (some (dayStart date)) none T0 = true
    · exact hpersist _ _ _ hex1
    · rcases Option.ne_none_iff_exists'.mp hfind with ⟨q, hq⟩
      have hnev : ruleDayEvents evs user_id date ≠ [] := by
        intro h0
        rw [h0] at hq
        simp [categoryHours] at hq
      have hz : (categoryHours (ruleDayEvents evs user_id date) cats).2 ≠ 0 := by
        intro h0
        have hpred := List.find?_some hq
        have hqmem := List.mem_of_find?_eq_some hq
        rcases List.mem_map.mp hqmem with ⟨p, hp, hpq⟩
        rw [← hpq] at hpred
        simp only [decide_eq_true_eq] at hpred
        rw [h0] at hpred
        have h2 : (3 : ℚ) / 5 < p.2 / 0 := hpred
        rw [div_zero] at h2
        norm_num at h2
      have heq1 : _check_balance_rule evs cats
          (_cleanup_expired_suggestions store user_id T0) user_id date T0 =
          [_create_balance_suggestion user_id q.1 q.2 T0] := by
        simp only [_check_balance_rule]
        rw [if_neg hnev, if_neg hz,
          balanceLoop_eq (_cleanup_expired_suggestions store user_id T0) user_id
            (dayStart date) T0,
          if_neg hex1, hq]
      have hmem1 : _create_balance_suggestion user_id q.1 q.2 T0 ∈
          _check_balance_rule evs cats
            (_cleanup_expired_suggestions store user_id T0) user_id date T0 := by
        rw [heq1]
        exact List.mem_singleton_self _
      have hwin : withinReferenceDay (some (dayStart date))
          (_create_balance_suggestion user_id q.1 q.2 T0) = true := by
        refine @withinReferenceDay_of_day (dayStart date) _ T0 rfl ?_
        rw [dayStart_idem, hdate]
      exact suggestion_exists_after_cleanup (hnewmem _ (Or.inr (Or.inl hmem1)))
        rfl rfl rfl hexpiry rfl hwin
  have hcovM : ∀ e ∈ moveQuery evs user_id T1,
      86400 < e.updated_at - e.created_at → e.is_flexible = true →
      _suggestion_exists (_cleanup_expired_suggestions
          (generate_suggestions_for_user evs cats store user_id date T0 T0).2
          user_id T1)
        user_id "move_event" (some e.start_time) (some e.id) T1 = true := by
    intro e he h1 h2
    have heevs : e ∈ evs := (List.mem_filter.mp he).1
    have hprops := (List.mem_filter.mp he).2
    simp only [decide_eq_true_eq] at hprops
    have hdaye : dayStart e.start_time = dayStart T0 :=
      hmove e heevs hprops.1 hprops.2.1 hprops.2.2.1 hprops.2.2.2 h1 h2
    by_cases hex1 : _suggestion_exists (_cleanup_expired_suggestions store user_id T0)
        user_id "move_event" (some e.start_time) (some e.id) T0 = true
    · exact hpersist _ _ _ hex1
    · have he0 : e ∈ moveQuery evs user_id T0 := by
        apply List.mem_filter.mpr
        refine ⟨heevs, ?_⟩
        simp only [decide_eq_true_eq]
        exact ⟨hprops.1, by omega, hprops.2.2.1, hprops.2.2.2⟩
      have hmem1 : _create_move_suggestion user_id e T0 ∈
          _check_postponement_rule evs
            (_cleanup_expired_suggestions store user_id T0) user_id T0 T0 := by
        rw [postponement_rule_eq]
        apply List.mem_map_of_mem
        apply List.mem_filter.mpr
        refine ⟨he0, ?_⟩
        unfold moveTrigger
        simp only [Bool.and_eq_true, Bool.not_eq_true', decide_eq_true_eq]
        exact ⟨⟨h1, h2⟩, by simpa using hex1⟩
      have hwin : withinReferenceDay (some e.start_time)
          (_create_move_suggestion user_id e T0) = true :=
        @withinReferenceDay_of_day e.start_time _ T0 rfl hdaye
      exact suggestion_exists_after_cleanup (hnewmem _ (Or.inr (Or.inr hmem1)))
        rfl rfl rfl hexpiry (matchesEventFilter_self rfl) hwin
  show _check_break_rule evs (_cleanup_expired_suggestions
        (generate_suggestions_for_user evs cats store user_id date T0 T0).2
        user_id T1) user_id date T1 ++
      _check_balance_rule evs cats (_cleanup_expired_suggestions
        (generate_suggestions_for_user evs cats store user_id date T0 T0).2
        user_id T1) user_id date T1 ++
      _check_postponement_rule evs (_cleanup_expired_suggestions
        (generate_suggestions_for_user evs cats store user_id date T0 T0).2
        user_id T1) user_id T1 T1 = []
  rw [break_rule_empty_of_covered evs _ user_id date T1 hcovB,
    balance_rule_empty_of_covered evs cats _ user_id date T1 hcovBal,
    move_rule_empty_of_covered evs _ user_id T1 hcovM]
  rfl

/-- Witness for `claim_C4_amended`: two calls 10 minutes apart on the same
calendar day, with a same-day postponement-triggering event; the second call
emits nothing. -/
theorem claim_C4_amended_witness :
    ((86440000 : Int) ≤ 86440600 ∧
      dayStart 86440600 = dayStart 86440000 ∧
      dayStart 86440000 = dayStart 86440000 ∧
      (∀ s ∈ ([] : List Suggestion), s.status = "pending" →
        (86440000 : Int) < s.expires_at → (86440600 : Int) < s.expires_at) ∧
      (∀ e ∈ [c4wEvent], e.user_id = 1 →
        (86440600 : Int) - 7 * 86400 ≤ e.updated_at →
        e.status ≠ "cancelled" → e.status ≠ "completed" →
        (86400 : Int) < e.updated_at - e.created_at → e.is_flexible = true →
        dayStart e.start_time = dayStart 86440000)) ∧
    (generate_suggestions_for_user [c4wEvent] []
        (generate_suggestions_for_user [c4wEvent] [] [] 1 86440000 86440000
          86440000).2
        1 86440000 86440600 86440600).1 = [] :=
  ⟨⟨by decide, by decide, by decide, by decide, by decide⟩,
    claim_C4_amended [c4wEvent] [] [] 1 86440000 86440000 86440600
      (by decide) (by decide) (by decide) (by decide) (by decide)⟩

/-! ### Claim C9: request validation before the slot search -/

/-- The raw body of a `/smart-schedule/find-best-slot` request
(`SmartScheduleRequest` in `routes/smart_scheduling.py`), before pydantic
validation: the two bounded integer fields arrive as arbitrary integers. -/
structure SmartScheduleRequestRaw where
  user_id : Nat
  duration_minutes : Int
  preferred_start : Int
  priority : String
  location : Option String
  category_id : Option Nat
  constraints : TimeConstraint
  search_days : Int
deriving DecidableEq, Repr

/-- The pydantic field constraints of `SmartScheduleRequest`
(`duration_minutes: Field(..., gt=0, le=1440)`,
`search_days: Field(7, ge=1, le=30)`): an out-of-bounds field makes the
whole request invalid, reported with the offending field's name (pydantic
checks fields in declaration order, `duration_minutes` first). -/
def validateSmartScheduleRequest (r : SmartScheduleRequestRaw) :
    Except String SmartScheduleRequestRaw :=
  if r.duration_minutes ≤ 0 ∨ 1440 < r.duration_minutes then
    Except.error "duration_minutes"
  else if r.search_days < 1 ∨ 30 < r.search_days then
    Except.error "search_days"
  else Except.ok r

/-- The `find_best_slot` route: FastAPI validates the request body against
the pydantic model before the handler body runs, so an invalid request is
answered with the validation error and the handler — and with it the slot
search over the event store — never executes.  On a valid request the
handler calls `SmartSchedulerService.find_best_slot` with the request's
fields (`duration` in seconds, `search_days` as a count). -/
def find_best_slot_route (evs : List Event) (r : SmartScheduleRequestRaw) :
    Except String SmartSchedulingResult :=
  match validateSmartScheduleRequest r with
  | Except.error f => Except.error f
  | Except.ok r =>
    Except.ok (find_best_slot evs r.user_id (r.duration_minutes * 60)
      r.preferred_start r.priority r.location r.category_id r.constraints
      r.search_days.toNat)

/-- C9: a request with a non-positive duration (or one beyond the 1440-minute
bound) or an out-of-range search window is rejected with a validation error
naming the offending field, and no slot search is performed: the response is
the same whatever the event store contains. -/
theorem claim_C9_validation (r : SmartScheduleRequestRaw)
    (h : r.duration_minutes ≤ 0 ∨ 1440 < r.duration_minutes ∨
      r.search_days < 1 ∨ 30 < r.search_days) :
    ∃ f : String,
      (f = "duration_minutes" ∨ f = "search_days") ∧
      (r.duration_minutes ≤ 0 ∨ 1440 < r.duration_minutes →
        f = "duration_minutes") ∧
      ∀ evs : List Event, find_best_slot_route evs r = Except.error f := by
  by_cases h1 : r.duration_minutes ≤ 0 ∨ 1440 < r.duration_minutes
  · refine ⟨"duration_minutes", Or.inl rfl, fun _ => rfl, ?_⟩
    intro evs
    unfold find_best_slot_route validateSmartScheduleRequest
    rw [if_pos h1]
  · have h2 : r.search_days < 1 ∨ 30 < r.search_days := by omega
    refine ⟨"search_days", Or.inr rfl, fun hc => absurd hc h1, ?_⟩
    intro evs
    unfold find_best_slot_route validateSmartScheduleRequest
    rw [if_neg h1, if_pos h2]

/-- A request with a zero duration, for the C9 witness. -/
def c9Request : SmartScheduleRequestRaw :=
  { user_id := 1, duration_minutes := 0, preferred_start := 864000,
    priority := "medium", location := none, category_id := none,
    constraints := {}, search_days := 7 }

/-- Witness for `claim_C9_validation` at the zero-duration request. -/
theorem claim_C9_validation_witness :
    (c9Request.duration_minutes ≤ 0 ∨ 1440 < c9Request.duration_minutes ∨
      c9Request.search_days < 1 ∨ 30 < c9Request.search_days) ∧
    ∃ f : String,
      (f = "duration_minutes" ∨ f = "search_days") ∧
      (c9Request.duration_minutes ≤ 0 ∨ 1440 < c9Request.duration_minutes →
        f = "duration_minutes") ∧
      ∀ evs : List Event, find_best_slot_route evs c9Request = Except.error f :=
  ⟨by decide, claim_C9_validation c9Request (by decide)⟩

end Kairos

